import Mathlib

/-!
Verification development for the paragraph segmenter and the concurrent,
resumable translation scheduler of the translate-ai-pdf repository
(`src/utils/translator.py`, `src/utils/progress_storage.py`).

The Python code is shallowly embedded as executable Lean definitions:

* Strings are Lean `String`s (a wrapper around `List Char`); Python `len`
  counts code points, as does `String.length`.
* The Python whitespace class `\s`, `str.strip()` and `str.split()` match
  Unicode whitespace; the embedding models the ASCII subset
  (space, tab, LF, CR, VT, FF), which is what the code paths exercised
  here ever see.
* Python's `\d` matches Unicode decimal digits; the embedding models the
  ASCII digits plus the Arabic-Indic digits U+0660-U+0669, the ranges the
  source patterns name explicitly.
* Fractional size thresholds (`max * 0.7`, `* 0.75`, `* 0.8`, `* 1.5`)
  are embedded as exact rational comparisons on naturals
  (for example `len <= max * 0.7` becomes `10 * len <= 7 * max`);
  `0.75` and `1.5` are exactly representable as floats, the others
  differ from the float value only within rounding of huge inputs.
* The thread pool of `translate_text_gemini` is modelled by processing the
  submitted task list sequentially in submission order; every claim proved
  here concerns which indices are dispatched and the final per-index state,
  which the source makes order-independent (each worker writes only its own
  slot under the lock).  The cooperative stop flag is modelled as a
  constant Boolean.
* The remote Gemini client is abstracted as a function from attempt number
  to either a response text or a raised exception message; the SQLite
  checkpoint store is abstracted as a function returning ok / False /
  raised, mirroring the interface boundary of the source.
-/

set_option maxRecDepth 100000

namespace TranslatePdf

/-- Python whitespace class `\s` (ASCII subset): space, tab, LF, CR, VT, FF. -/
def isPySpace (c : Char) : Bool :=
  c = ' ' || c = '\t' || c = '\n' || c = '\r' || c = Char.ofNat 11 || c = Char.ofNat 12

/-- Characters collapsed by `re.sub(r'[ \t]+', ' ', text)`. -/
def isSpaceTab (c : Char) : Bool :=
  c = ' ' || c = '\t'

/-- Python `str.strip()` on a character list. -/
def pyStripChars (l : List Char) : List Char :=
  ((l.dropWhile isPySpace).reverse.dropWhile isPySpace).reverse

/-- Python `str.strip()`. -/
def pyStrip (s : String) : String :=
  String.mk (pyStripChars s.data)

/-- Python `re.sub(r'[ \t]+', ' ', .)`: collapse runs of spaces/tabs to one
space.  The Boolean argument records whether the previous character was in
the collapsed class. -/
def collapseSpaceTabChars : Bool → List Char → List Char
  | _, [] => []
  | prevSp, c :: rest =>
    if isSpaceTab c then
      if prevSp then collapseSpaceTabChars true rest
      else ' ' :: collapseSpaceTabChars true rest
    else c :: collapseSpaceTabChars false rest

/-- Emit a run of `n` newlines as `re.sub(r'\n{3,}', '\n\n', .)` leaves it:
runs of three or more become two. -/
def emitNL (n : Nat) : List Char :=
  List.replicate (min n 2) '\n'

/-- Python `re.sub(r'\n{3,}', '\n\n', .)`.  The counter argument is the
number of newlines accumulated in the current run. -/
def collapseNLChars : Nat → List Char → List Char
  | pending, [] => emitNL pending
  | pending, c :: rest =>
    if c = '\n' then collapseNLChars (pending + 1) rest
    else emitNL pending ++ c :: collapseNLChars 0 rest

/-- Python `re.sub(r'\s+', ' ', .)`: collapse every whitespace run to a
single space (leading/trailing runs become a space as well). -/
def normWsChars : Bool → List Char → List Char
  | _, [] => []
  | prevSp, c :: rest =>
    if isPySpace c then
      if prevSp then normWsChars true rest
      else ' ' :: normWsChars true rest
    else c :: normWsChars false rest

/-- Python `re.sub(r'\s+', ' ', s)` on strings. -/
def normWsStr (s : String) : String :=
  String.mk (normWsChars false s.data)

/-- Python `text.split('\n\n')` (leftmost, non-overlapping separators). -/
def splitOnBlankAux (cur : List Char) : List Char → List (List Char)
  | '\n' :: '\n' :: rest => cur.reverse :: splitOnBlankAux [] rest
  | c :: rest => splitOnBlankAux (c :: cur) rest
  | [] => [cur.reverse]

/-- Python `text.split('\n')`. -/
def splitLinesAux (cur : List Char) : List Char → List (List Char)
  | [] => [cur.reverse]
  | c :: rest =>
    if c = '\n' then cur.reverse :: splitLinesAux [] rest
    else splitLinesAux (c :: cur) rest

/-- Python `str.split()` with no argument: split on whitespace runs,
discarding empty fragments. -/
def splitWsAux (cur : List Char) : List Char → List (List Char)
  | [] => if cur.isEmpty then [] else [cur.reverse]
  | c :: rest =>
    if isPySpace c then
      if cur.isEmpty then splitWsAux [] rest
      else cur.reverse :: splitWsAux [] rest
    else splitWsAux (c :: cur) rest

/-- Python `s.split()` on strings. -/
def splitWsStr (s : String) : List String :=
  (splitWsAux [] s.data).map String.mk

/-- Python `' '.join(ws)`. -/
def joinSpace : List String → String
  | [] => ""
  | [w] => w
  | w :: ws => w ++ " " ++ joinSpace ws

/-- Python `'\n\n'.join(ps)` (line 932 of translator.py). -/
def joinBlank : List String → String
  | [] => ""
  | [p] => p
  | p :: ps => p ++ "\n\n" ++ joinBlank ps

/-- Does `pat` occur as a leading segment of `l`? (Python `str.startswith`.) -/
def startsList : List Char → List Char → Bool
  | [], _ => true
  | _ :: _, [] => false
  | a :: as, b :: bs => a = b && startsList as bs

/-- Substring test (Python `sub in s`). -/
def infixList (pat : List Char) : List Char → Bool
  | [] => startsList pat []
  | c :: rest => startsList pat (c :: rest) || infixList pat rest

/-- Python `p in s` for strings. -/
def containsStr (s pat : String) : Bool :=
  infixList pat.data s.data

/-- Python `s.startswith(p)`. -/
def startsWithStr (pat s : String) : Bool :=
  startsList pat.data s.data

/-- Worker for `replaceAllChars`, structurally recursive on a fuel
argument that starts at the length of the scanned list; every step
consumes at least one character, so the fuel never runs out. -/
def replaceGo (pat rep : List Char) : Nat → List Char → List Char
  | _, [] => []
  | 0, l => l
  | fuel + 1, c :: rest =>
    if pat ≠ [] ∧ startsList pat (c :: rest) then
      rep ++ replaceGo pat rep fuel ((c :: rest).drop pat.length)
    else
      c :: replaceGo pat rep fuel rest

/-- Python `str.replace(pat, rep)` (all leftmost non-overlapping
occurrences); the source only calls it with non-empty patterns. -/
def replaceAllChars (pat rep l : List Char) : List Char :=
  replaceGo pat rep l.length l

/-- Python `str.lower()` (ASCII; the source only lowercases exception
messages). -/
def toLowerStr (s : String) : String :=
  String.mk (s.data.map Char.toLower)

/-- Digits accepted by the verse patterns: `\d` (embedded as the ASCII
digits) together with the Arabic-Indic digits `٠-٩` that the
pattern at translator.py line 111 names explicitly. -/
def isVerseDigit (c : Char) : Bool :=
  c.isDigit || (0x660 ≤ c.toNat && c.toNat ≤ 0x669)

/-- The verse-number pattern `^[\d٠-٩]+[\.\)]\s+`
(translator.py lines 111 and 258): one or more digits, then a period or
closing parenthesis, then at least one whitespace character. -/
def verseMatch (s : String) : Bool :=
  let ds := s.data.takeWhile isVerseDigit
  let rest := s.data.dropWhile isVerseDigit
  !ds.isEmpty &&
    (match rest with
     | p :: r =>
       (p = '.' || p = ')') &&
         (match r with
          | d :: _ => isPySpace d
          | [] => false)
     | [] => false)

/-- Python `re.search(r'[.!?؟]\s*$', prev)` (translator.py line 253): the
last non-whitespace character, if any, is sentence-final punctuation. -/
def endsPunct (s : String) : Bool :=
  match s.data.reverse.dropWhile isPySpace with
  | c :: _ => c = '.' || c = '!' || c = '?' || c = Char.ofNat 0x61F
  | [] => false

/-- Python `re.match(r'^[A-ZА-Я؀-ۿ]', line)` (translator.py
line 259). -/
def startsCapArabic (s : String) : Bool :=
  match s.data with
  | c :: _ =>
    ('A' ≤ c && c ≤ 'Z') || (0x410 ≤ c.toNat && c.toNat ≤ 0x42F) ||
      (0x600 ≤ c.toNat && c.toNat ≤ 0x6FF)
  | [] => false

/-- Inner loop of `_group_consecutive_verses` (translator.py lines
113-141): accumulator of grouped paragraphs and the current verse group. -/
def groupVersesAux (minLength : Nat) : List String → List String → List String → List String
  | acc, grp, [] =>
    (match grp with
     | [] => acc
     | _ =>
       let gt := joinSpace grp
       if minLength ≤ gt.length then acc ++ [gt] else acc)
  | acc, grp, para :: ps =>
    let st := pyStrip para
    if verseMatch st then groupVersesAux minLength acc (grp ++ [st]) ps
    else
      let acc1 :=
        match grp with
        | [] => acc
        | _ =>
          let gt := joinSpace grp
          if minLength ≤ gt.length then acc ++ [gt] else acc
      let acc2 := if minLength ≤ st.length then acc1 ++ [st] else acc1
      groupVersesAux minLength acc2 [] ps

/-- `_group_consecutive_verses(paragraphs, min_length)` (translator.py
lines 93-142). -/
def group_consecutive_verses (paragraphs : List String) (minLength : Nat) : List String :=
  if paragraphs = [] then []
  else
    let grouped := groupVersesAux minLength [] [] paragraphs
    if grouped = [] then paragraphs else grouped

/-- The short-paragraph merge pass of `split_into_paragraphs`
(translator.py lines 190-206): merge a fragment shorter than
`3 * min_length` into the previous paragraph when the result stays at or
under `0.7 * max_paragraph_size`. -/
def mergeShortAux (minLength maxSize : Nat) : List String → List String → List String
  | acc, [] => acc
  | acc, p :: ps =>
    match acc.getLast? with
    | some lastP =>
      if p.length < minLength * 3 then
        let pm := lastP ++ " " ++ p
        if 10 * pm.length ≤ 7 * maxSize then mergeShortAux minLength maxSize (acc.dropLast ++ [pm]) ps
        else mergeShortAux minLength maxSize (acc ++ [p]) ps
      else mergeShortAux minLength maxSize (acc ++ [p]) ps
    | none => mergeShortAux minLength maxSize (acc ++ [p]) ps

/-- Flush of the line-based accumulator (translator.py lines 228-231,
276-279, 286-289): join the collected lines, strip, collapse whitespace,
and keep the result only when it reaches `min_length`. -/
def s2Flush (minLength : Nat) (acc cur : List String) : List String :=
  let pt := normWsStr (pyStrip (joinSpace cur))
  if minLength ≤ pt.length then acc ++ [pt] else acc

/-- Strategy 2 of `split_into_paragraphs` (translator.py lines 216-289):
line-based resplitting of a single oversized paragraph.  Arguments:
output paragraphs so far, lines of the current paragraph, the
`consecutive_empty` counter, remaining lines. -/
def s2Loop (minLength maxSize : Nat) : List String → List String → Nat → List String → List String
  | acc, cur, _, [] => if cur.isEmpty then acc else s2Flush minLength acc cur
  | acc, cur, ce, line :: ls =>
    let lstr := pyStrip line
    if lstr = "" then
      let ce' := ce + 1
      if 2 ≤ ce' ∧ ¬cur.isEmpty then s2Loop minLength maxSize (s2Flush minLength acc cur) [] ce' ls
      else s2Loop minLength maxSize acc cur ce' ls
    else
      let shouldStartNew :=
        if cur.isEmpty then false
        else
          let prev := if 2 ≤ cur.length then joinSpace (cur.drop (cur.length - 2)) else joinSpace cur
          let cps := (joinSpace cur).length
          if endsPunct prev && (verseMatch lstr || startsCapArabic lstr) && decide (800 ≤ cps) then true
          else if 4 * cps ≥ 3 * maxSize then true
          else false
      if shouldStartNew ∧ ¬cur.isEmpty then s2Loop minLength maxSize (s2Flush minLength acc cur) [lstr] 0 ls
      else s2Loop minLength maxSize acc (cur ++ [lstr]) 0 ls

/-- Strategy 2 entry point: runs on the whitespace-normalized text (the
`text` variable reassigned at translator.py lines 168-169). -/
def strategy2 (normText : String) (minLength maxSize : Nat) : List String :=
  s2Loop minLength maxSize [] [] 0 ((splitLinesAux [] normText.data).map String.mk)

/-- Python `re.split(r'([.!?])\s+', text)`: parts alternate between text
and the captured punctuation; the whitespace after the punctuation is
consumed.  The Boolean is true while skipping the separator whitespace. -/
def splitSentAux : Bool → List Char → List Char → List (List Char)
  | _, cur, [] => [cur.reverse]
  | skipWs, cur, c :: rest =>
    if skipWs && isPySpace c then splitSentAux true cur rest
    else
      if (c = '.' || c = '!' || c = '?') &&
          (match rest with
           | d :: _ => isPySpace d
           | [] => false) then
        cur.reverse :: [c] :: splitSentAux true [] rest
      else splitSentAux false (c :: cur) rest

/-- Sentence reconstruction (translator.py lines 300-309): pair each text
part with its captured punctuation. -/
def sentencesOf : List String → List String
  | [] => []
  | [t] => [t]
  | t :: p :: rest => (t ++ p) :: sentencesOf rest

/-- The sentence-grouping loop of strategy 3 (translator.py lines
312-348).  Arguments: output paragraphs so far, `current_para`, remaining
sentences. -/
def s3Group (minLength maxSize : Nat) : List String → String → List String → List String
  | acc, cur, [] => if cur ≠ "" ∧ minLength ≤ cur.length then acc ++ [cur] else acc
  | acc, cur, s :: ss =>
    let pot := if cur ≠ "" then cur ++ " " ++ s else s
    let p1 : List String × String :=
      if cur ≠ "" ∧ 800 ≤ cur.length ∧ 4 * pot.length > 3 * maxSize then
        ((if minLength ≤ cur.length then acc ++ [cur] else acc), s)
      else (acc, pot)
    let p2 : List String × String :=
      if maxSize < p1.2.length then
        if 0 < p1.1.length ∨ minLength < p1.2.length then
          let ws := splitWsStr p1.2
          let mid := ws.length / 2
          let fh := joinSpace (ws.take mid)
          let sh := joinSpace (ws.drop mid)
          ((if minLength ≤ fh.length then p1.1 ++ [fh] else p1.1), sh)
        else p1
      else p1
    s3Group minLength maxSize p2.1 p2.2 ss

/-- Strategy 3 of `split_into_paragraphs` (translator.py lines 295-348):
split the oversized text at sentence boundaries and regroup. -/
def strategy3 (bigText : String) (minLength maxSize : Nat) : List String :=
  let parts := (splitSentAux false [] bigText.data).map String.mk
  let sentences := (sentencesOf parts).filterMap fun s =>
    let s' := pyStrip s
    if s' ≠ "" ∧ 10 ≤ s'.length then some s' else none
  s3Group minLength maxSize [] "" sentences

/-- The word-chunking loop used by strategy 4 (translator.py lines
354-375) and by the final cleanup for paragraphs over `1.5 * max`
(lines 386-407); the chunk target is `0.8 * max_paragraph_size`.
Arguments: output so far, `current_chunk`, `current_size`, remaining
words. -/
def chunkWords (minLength maxSize : Nat) : List String → List String → Nat → List String → List String
  | acc, chunk, _, [] =>
    (match chunk with
     | [] => acc
     | _ =>
       let ct := pyStrip (joinSpace chunk)
       if minLength ≤ ct.length then acc ++ [ct] else acc)
  | acc, chunk, size, w :: ws =>
    if 5 * (size + (w.length + 1)) > 4 * maxSize ∧ ¬chunk.isEmpty then
      let ct := pyStrip (joinSpace chunk)
      let acc' := if minLength ≤ ct.length then acc ++ [ct] else acc
      chunkWords minLength maxSize acc' [w] w.length ws
    else chunkWords minLength maxSize acc (chunk ++ [w]) (size + (w.length + 1)) ws

/-- Strategy 4 of `split_into_paragraphs` (translator.py lines 350-375):
fixed-size word chunking of the oversized text. -/
def strategy4 (bigText : String) (minLength maxSize : Nat) : List String :=
  chunkWords minLength maxSize [] [] 0 (splitWsStr bigText)

/-- Final cleanup pass of `split_into_paragraphs` (translator.py lines
377-421): re-normalize each paragraph; word-chunk paragraphs over
`1.5 * max`; merge a paragraph under `4 * min_length` into a predecessor
under `0.75 * max` when the merge stays within `max`. -/
def finalCleanup (minLength maxSize : Nat) : List String → List String → List String
  | acc, [] => acc
  | acc, p :: ps =>
    let para := pyStrip (normWsStr p)
    if 3 * maxSize < 2 * para.length then
      finalCleanup minLength maxSize (chunkWords minLength maxSize acc [] 0 (splitWsStr para)) ps
    else
      if minLength ≤ para.length then
        match acc.getLast? with
        | some lastP =>
          if 4 * lastP.length < 3 * maxSize ∧ para.length < minLength * 4 then
            let pm := lastP ++ " " ++ para
            if pm.length ≤ maxSize then finalCleanup minLength maxSize (acc.dropLast ++ [pm]) ps
            else finalCleanup minLength maxSize (acc ++ [para]) ps
          else finalCleanup minLength maxSize (acc ++ [para]) ps
        | none => finalCleanup minLength maxSize (acc ++ [para]) ps
      else finalCleanup minLength maxSize acc ps

/-- The fallback cascade for a single oversized paragraph
(translator.py lines 209-375): line-based resplitting, then
sentence-boundary grouping, then word chunking. -/
def splitFallback (normText bigText : String) (minLength maxSize : Nat) : List String :=
  let potential := strategy2 normText minLength maxSize
  if 1 < potential.length then potential
  else
    let s3res := strategy3 bigText minLength maxSize
    match s3res with
    | [] => strategy4 bigText minLength maxSize
    | [p] => if maxSize < p.length then strategy4 bigText minLength maxSize else [p]
    | other => other

/-- `split_into_paragraphs(text, min_length, max_paragraph_size)`
(translator.py lines 145-446).  The logging and metrics calls are pure
observers and are omitted. -/
def split_into_paragraphs (text : String) (minLength maxSize : Nat) : List String :=
  if pyStrip text = "" then []
  else
    let normText := String.mk (collapseNLChars 0 (collapseSpaceTabChars false text.data))
    let frags := (splitOnBlankAux [] normText.data).map String.mk
    let cleaned := frags.filterMap fun f =>
      let f' := normWsStr (pyStrip f)
      if minLength ≤ f'.length then some f' else none
    let cleaned1 := if 1 < cleaned.length then group_consecutive_verses cleaned minLength else cleaned
    let cleaned2 := if 1 < cleaned1.length then mergeShortAux minLength maxSize [] cleaned1 else cleaned1
    let cleaned3 :=
      match cleaned2 with
      | [big] => if maxSize < big.length then splitFallback normText big minLength maxSize else [big]
      | other => other
    finalCleanup minLength maxSize [] cleaned3

/-- Exceptions of the translation layer: `ValueError` (authentication /
empty input), generic `Exception`, and `TranslationStoppedException`. -/
inductive PErr where
  | valueError (msg : String)
  | otherError (msg : String)
  | stopped
deriving DecidableEq

/-- Outcome of one call of the Gemini client for one attempt: a response
object whose `.text` is the given string, or a raised exception with the
given message. -/
inductive ProviderResult where
  | resp (text : String)
  | raises (msg : String)
deriving DecidableEq

/-- Outcome of one `update_progress_paragraph` call: returned True,
returned False (caught error inside the store), or raised. -/
inductive StoreOutcome where
  | ok
  | returnedFalse
  | raised (msg : String)
deriving DecidableEq

/-- Python `any(p in s for p in pats)` for the substring classification of
exception messages (translator.py lines 607, 619, 624). -/
def hasAny (s : String) (pats : List String) : Bool :=
  pats.any fun p => containsStr s p

/-- Prefix-stripping of the model output (translator.py lines 590-595):
strip, remove a leading `"<target> translation:"` or `"Translation:"`
marker (via `str.replace` of all occurrences) and strip again. -/
def postTranslate (targetLang t : String) : String :=
  let tr := pyStrip t
  let pat1 := targetLang ++ " translation:"
  let tr1 :=
    if startsWithStr pat1 tr then pyStrip (String.mk (replaceAllChars pat1.data [] tr.data))
    else tr
  let tr2 :=
    if startsWithStr "Translation:" tr1 then
      pyStrip (String.mk (replaceAllChars ("Translation:").data [] tr1.data))
    else tr1
  tr2

/-- The retry loop of `translate_paragraph_gemini` (translator.py lines
532-647) in non-streaming mode.  The first numeric argument is the
attempt counter `attempt` of `range(max_retries)`; the second is the
number of attempts still available, `max_retries - attempt`, so that the
Python guard `attempt < max_retries` becomes "remaining attempts left"
and `attempt < max_retries - 1` becomes `1 ≤ remaining`.  An empty
response text raises `ValueError("Empty response from Gemini API")`,
which the same handler classifies by substring like any other exception.
The final argument is `str(last_error)` for the fall-through raise at
line 647 (reachable only with `max_retries = 0`, where it is `"None"`). -/
def gemini_attempt_loop (targetLang : String) (maxRetries : Nat)
    (att : Nat → ProviderResult) : Nat → Nat → String → Except PErr String
  | _, 0, lastMsg => .error (.otherError ("Translation failed: " ++ lastMsg))
  | k, remaining + 1, _ =>
    let outcome : String ⊕ String :=
      match att k with
      | .resp t => if t = "" then Sum.inr "Empty response from Gemini API" else Sum.inl t
      | .raises m => Sum.inr m
    match outcome with
    | Sum.inl t => .ok (postTranslate targetLang t)
    | Sum.inr msg =>
      let ls := toLowerStr msg
      if hasAny ls ["429", "rate limit", "quota"] then
        if 1 ≤ remaining then gemini_attempt_loop targetLang maxRetries att (k + 1) remaining msg
        else .error (.otherError ("Rate limit exceeded. Please try again later. Error: " ++ msg))
      else if hasAny ls ["401", "403", "invalid", "authentication"] then
        .error (.valueError ("Invalid API key or authentication failed: " ++ msg))
      else if hasAny ls ["network", "connection", "timeout"] then
        if 1 ≤ remaining then gemini_attempt_loop targetLang maxRetries att (k + 1) remaining msg
        else .error (.otherError ("Network error. Please check your connection and try again. Error: " ++ msg))
      else
        if 1 ≤ remaining then gemini_attempt_loop targetLang maxRetries att (k + 1) remaining msg
        else .error (.otherError ("Translation failed after " ++ toString maxRetries ++ " attempts: " ++ msg))

/-- `translate_paragraph_gemini` (translator.py lines 449-657) in
non-streaming mode with configuration already resolved: validate the API
key, run the retry loop, and re-wrap generic exceptions with the
`"Error translating paragraph:"` outer handler (line 657) while passing
`ValueError` through unchanged (line 650).  The paragraph itself only
feeds the prompt; the provider's behaviour is abstracted by `att`. -/
def translate_paragraph_gemini (paragraph apiKey : String) (maxRetries : Nat)
    (targetLang : String) (att : Nat → ProviderResult) : Except PErr String :=
  let _ := paragraph
  if pyStrip apiKey = "" then .error (.valueError "Google API key is required but not provided")
  else
    match gemini_attempt_loop targetLang maxRetries att 0 maxRetries "None" with
    | .ok t => .ok t
    | .error (.valueError m) => .error (.valueError m)
    | .error (.otherError m) => .error (.otherError ("Error translating paragraph: " ++ m))
    | .error .stopped => .error .stopped

/-- Python truthiness of the optional `progress_file_id` argument
(`if progress_file_id:`): present and non-empty. -/
def pfidTruthy : Option String → Bool
  | some s => s ≠ ""
  | none => false

/-- The dictionary returned by `load_progress` as consumed by the resume
logic of `translate_text_gemini` (lines 752-758): membership of `str(idx)`
in `translated_paragraphs` and the stored translation. -/
structure LoadedProgress where
  translated : Nat → Option String

/-- Shared mutable state of one `translate_text_gemini` run, plus
instrumentation: `slots` is `translated_paragraphs`, `failed` is
`failed_paragraphs` (1-based numbers), `invoked` records the indices for
which `translate_paragraph_gemini` was called, `progressEvents` the
`(completed_count, total)` pairs passed to the progress callback,
`storeCalls` the checkpoint writes issued with their outcomes, and
`tasks` the task list submitted to the pool. -/
structure RunState where
  slots : List (Option String)
  failed : List Nat
  invoked : List Nat
  progressEvents : List (Nat × Nat)
  storeCalls : List (Nat × StoreOutcome)
  tasks : List Nat
deriving DecidableEq

/-- Python `sum(1 for p in translated_paragraphs if p is not None)`
(translator.py line 852). -/
def countSome (l : List (Option String)) : Nat :=
  l.countP fun o => o.isSome

/-- `process_paragraph(idx)` (translator.py lines 788-868) run inside a
worker: check the stop flag, call the client, then under the lock write
the slot, issue the checkpoint write (its outcome is caught and ignored,
lines 837-848) and report progress; an auth `ValueError` is re-raised
(line 860) and any other exception fills the slot with the original text
plus an inline error marker (lines 861-868). -/
def process_paragraph (pp : List String) (apiKey targetLang : String) (maxRetries : Nat)
    (att : Nat → Nat → ProviderResult) (store : Nat → String → StoreOutcome)
    (pfid : Option String) (total : Nat) (stop : Bool)
    (st : RunState) (idx : Nat) : RunState × Except PErr (Option String) :=
  if stop then (st, .ok none)
  else
    let paragraph := pp.getD idx ""
    let st1 := { st with invoked := st.invoked ++ [idx] }
    match translate_paragraph_gemini paragraph apiKey maxRetries targetLang (att idx) with
    | .ok tr =>
      let slots := st1.slots.set idx (some tr)
      let st2 :=
        { st1 with
          slots := slots
          storeCalls :=
            if pfidTruthy pfid then st1.storeCalls ++ [(idx, store idx tr)] else st1.storeCalls
          progressEvents := st1.progressEvents ++ [(countSome slots, total)] }
      (st2, .ok (some tr))
    | .error (.valueError m) => (st1, .error (.valueError m))
    | .error (.otherError m) =>
      let errText := paragraph ++ " [Translation error: " ++ m ++ "]"
      ({ st1 with slots := st1.slots.set idx (some errText), failed := st1.failed ++ [idx + 1] },
        .ok (some errText))
    | .error .stopped => (st1, .error .stopped)

deriving instance DecidableEq for Except

/-- Result of a `translate_text_gemini` run: the returned text or the
raised exception, together with the final shared state. -/
structure RunOutput where
  result : Except PErr String
  state : RunState
deriving DecidableEq

/-- The empty run state (used on the early-return paths). -/
def emptyRunState : RunState :=
  ⟨[], [], [], [], [], []⟩

/-- The resume logic of `translate_text_gemini` (translator.py lines
747-771): when a truthy `progress_file_id` and a positive
`resume_from_index` are given and `load_progress` found the job, the
resulting resume index is kept and the slots below it are seeded from the
loaded `translated_paragraphs` dictionary (`None` for missing indices);
otherwise `resume_from_index` is reset to 0 with no seed. -/
def resumeSeed (pfid : Option String) (loadResult : Option LoadedProgress)
    (resumeFromIndex : Nat) : Nat × List (Option String) :=
  if pfidTruthy pfid ∧ 0 < resumeFromIndex then
    match loadResult with
    | some prog => (resumeFromIndex, (List.range resumeFromIndex).map fun i => prog.translated i)
    | none => (0, [])
  else (0, [])

/-- Slot initialisation of `translate_text_gemini` (translator.py lines
773-781): a fresh run gets `[None] * total`; a resume run pads the seeded
prefix with `None` up to `total` entries. -/
def initialSlots (total : Nat) (rs : Nat × List (Option String)) : List (Option String) :=
  if rs.1 = 0 then List.replicate total none
  else rs.2 ++ List.replicate (total - rs.2.length) none

/-- One scheduler step: the state transformation of one completed task
(the exception, if any, is swallowed by the `as_completed` harvest loop,
translator.py lines 917-924). -/
def schedStep (pp : List String) (apiKey targetLang : String) (maxRetries : Nat)
    (att : Nat → Nat → ProviderResult) (store : Nat → String → StoreOutcome)
    (pfid : Option String) (total : Nat) (stop : Bool) : RunState → Nat → RunState :=
  fun s i => (process_paragraph pp apiKey targetLang maxRetries att store pfid total stop s i).1

/-- The task list submitted to the pool (translator.py lines 873-875):
`range(resume_from_index, total_paragraphs)`, with no filtering against
the checkpoint. -/
def runTasks (text : String) (pfid : Option String) (loadResult : Option LoadedProgress)
    (resumeFromIndex : Nat) : List Nat :=
  let total := (split_into_paragraphs text 50 2000).length
  let rs := resumeSeed pfid loadResult resumeFromIndex
  List.range' rs.1 (total - rs.1)

/-- The shared state at the start of the worker phase. -/
def runInit (text : String) (pfid : Option String) (loadResult : Option LoadedProgress)
    (resumeFromIndex : Nat) : RunState :=
  ⟨initialSlots (split_into_paragraphs text 50 2000).length (resumeSeed pfid loadResult resumeFromIndex),
    [], [], [], [], runTasks text pfid loadResult resumeFromIndex⟩

/-- The shared state after the worker phase of an unstopped run: the fold
of the scheduler step over the submitted task list. -/
def runFinal (text apiKey targetLang : String) (maxRetries : Nat)
    (att : Nat → Nat → ProviderResult) (store : Nat → String → StoreOutcome)
    (pfid : Option String) (loadResult : Option LoadedProgress)
    (resumeFromIndex : Nat) : RunState :=
  (runTasks text pfid loadResult resumeFromIndex).foldl
    (schedStep (split_into_paragraphs text 50 2000) apiKey targetLang maxRetries att store pfid
      (split_into_paragraphs text 50 2000).length false)
    (runInit text pfid loadResult resumeFromIndex)

/-- `translate_text_gemini` (translator.py lines 665-942) with
configuration resolved, non-streaming, stop flag a constant: validate the
input text and the API key; split with the default `min_length=50`,
`max_paragraph_size=2000`; seed slots below `resume_from_index` from the
loaded checkpoint (lines 747-781); submit `range(resume_from_index,
total_paragraphs)` as the task list (lines 873-875); process tasks — the
`as_completed` harvest loop re-raises only `TranslationStoppedException`
and logs every other escaped exception (lines 917-924), modelled by
keeping each task's post-state and discarding its exception; finally join
the non-None slots with blank lines (line 932). -/
def translate_text_gemini (text apiKey targetLang : String) (maxRetries : Nat)
    (att : Nat → Nat → ProviderResult) (store : Nat → String → StoreOutcome)
    (pfid : Option String) (loadResult : Option LoadedProgress)
    (resumeFromIndex : Nat) (stop : Bool) : RunOutput :=
  if pyStrip text = "" then ⟨.error (.valueError "Input text is empty"), emptyRunState⟩
  else if pyStrip apiKey = "" then
    ⟨.error (.valueError "Google API key is required but not provided"), emptyRunState⟩
  else
    if split_into_paragraphs text 50 2000 = [] then ⟨.ok "", emptyRunState⟩
    else
      let pp := split_into_paragraphs text 50 2000
      let tasks := runTasks text pfid loadResult resumeFromIndex
      let st0 := runInit text pfid loadResult resumeFromIndex
      if stop ∧ tasks ≠ [] then ⟨.error .stopped, st0⟩
      else
        let stF := tasks.foldl (schedStep pp apiKey targetLang maxRetries att store pfid pp.length stop) st0
        ⟨.ok (joinBlank (stF.slots.filterMap id)), stF⟩

/-- One row of the `paragraphs` table as seen by `load_progress`
(progress_storage.py lines 105-109); `translated = none` models SQL NULL. -/
structure PRow where
  idx : Nat
  original : String
  translated : Option String
deriving DecidableEq

/-- Python truthiness of the stored `translated_text` column
(`if row['translated_text']:`, progress_storage.py line 130): NULL and
the empty string are falsy. -/
def truthyText : Option String → Bool
  | some s => s ≠ ""
  | none => false

/-- Python dict assignment `d[k] = v` on an association list: update the
existing key or append a new entry. -/
def dictInsert (d : List (Nat × String)) (k : Nat) (v : String) : List (Nat × String) :=
  if d.any (fun kv => kv.1 = k) then d.map fun kv => if kv.1 = k then (k, v) else kv
  else d ++ [(k, v)]

/-- Python `d.get(k)` on an association list. -/
def dictLookup (d : List (Nat × String)) (k : Nat) : Option String :=
  (d.find? fun kv => kv.1 = k).map fun kv => kv.2

/-- The dictionary reconstructed by `load_progress` (progress_storage.py
lines 90-151): the job's `total_paragraphs`, the reconstructed
`original_paragraphs` list, the sparse `translated_paragraphs` map and the
derived `completed_paragraphs` count. -/
structure LoadedJob where
  totalParagraphs : Nat
  originalParagraphs : List String
  translatedParagraphs : List (Nat × String)
  completedParagraphs : Nat
deriving DecidableEq

/-- The row loop of `load_progress` (progress_storage.py lines 127-133):
record the row's original text in `temp_originals` and, when the stored
translation is truthy, record it in `translated_paragraphs`. -/
def loadStep (acc : List (Nat × String) × List (Nat × String)) (r : PRow) :
    List (Nat × String) × List (Nat × String) :=
  let tempO := dictInsert acc.1 r.idx r.original
  let trans :=
    match r.translated with
    | some s => if s ≠ "" then dictInsert acc.2 r.idx s else acc.2
    | none => acc.2
  (tempO, trans)

/-- `load_progress` (progress_storage.py lines 90-151) for a job whose
row exists, over the paragraph rows returned by the SELECT: fold
`loadStep` over the rows, then rebuild `original_paragraphs` of length
`total_paragraphs` with missing slots as the empty string;
`completed_paragraphs` is the size of the translated map. -/
def load_progress (total : Nat) (rows : List PRow) : LoadedJob :=
  let res := rows.foldl loadStep ([], [])
  let originals :=
    if 0 < total then (List.range total).map fun i => (dictLookup res.1 i).getD ""
    else []
  ⟨total, originals, res.2, res.2.length⟩

/-- The value a task writes into its own slot, if any: `some (some t)`
for a success or a soft failure (translator.py lines 833, 865), `none`
when the task re-raises (auth `ValueError`, line 860) and therefore leaves
its slot untouched. -/
def taskSlot (pp : List String) (apiKey targetLang : String) (maxRetries : Nat)
    (att : Nat → Nat → ProviderResult) (i : Nat) : Option (Option String) :=
  match translate_paragraph_gemini (pp.getD i "") apiKey maxRetries targetLang (att i) with
  | .ok tr => some (some tr)
  | .error (.otherError m) =>
    some (some ((pp.getD i "") ++ " [Translation error: " ++ m ++ "]"))
  | .error (.valueError _) => none
  | .error .stopped => none

/-- The components of the run state that the source program itself reads
or returns: everything except the instrumentation log of checkpoint-write
outcomes (which the source catches and discards, translator.py lines
837-848). -/
def visible (st : RunState) :
    List (Option String) × List Nat × List Nat × List (Nat × Nat) × List Nat :=
  (st.slots, st.failed, st.invoked, st.progressEvents, st.tasks)

/-- A whitespace-free, non-empty word, as produced by Python
`str.split()`. -/
def wordOkS (w : String) : Prop :=
  w.data ≠ [] ∧ ∀ c ∈ w.data, isPySpace c = false

/-- The size invariant of every paragraph returned by
`split_into_paragraphs`: at least `min_length` characters, and within
`1.5 * max_paragraph_size` unless the paragraph is a single
whitespace-free word (which the word-chunker cannot split). -/
def paraOk (minLength maxSize : Nat) (p : String) : Prop :=
  minLength ≤ p.length ∧ (2 * p.length ≤ 3 * maxSize ∨ ' ' ∉ p.data)

/-- A provider outcome that `translate_paragraph_gemini` classifies as
retryable: the call raises, and the message does not match the
authentication substrings of translator.py line 619 (so it falls into the
rate-limit, network or other-error buckets, all of which retry and then
raise a generic `Exception`). -/
def retryableRaise (r : ProviderResult) : Prop :=
  ∃ msg, r = .raises msg ∧
    hasAny (toLowerStr msg) ["401", "403", "invalid", "authentication"] = false

/-- A 200-character single-letter paragraph; 200 characters keeps the
scenario paragraphs clear of both merge passes of the segmenter (the
`3 * min_length` and `4 * min_length` merge guards with the default
`min_length = 50`). -/
def repChar (c : Char) : String :=
  String.mk (List.replicate 200 c)

/-- A five-paragraph scenario document. -/
def scenarioText5 : String :=
  joinBlank [repChar 'a', repChar 'b', repChar 'c', repChar 'd', repChar 'e']

/-- A two-paragraph scenario document. -/
def scenarioText2 : String :=
  joinBlank [repChar 'a', repChar 'b']

/-- A checkpoint store whose writes always succeed. -/
def storeAllOk : Nat → String → StoreOutcome :=
  fun _ _ => .ok

/-- A checkpoint store whose writes always raise. -/
def storeAllRaise : Nat → String → StoreOutcome :=
  fun _ _ => .raised "disk full"

/-- A deterministic stub client: paragraph `i` translates to `"T" ++ i`. -/
def attAllOk : Nat → Nat → ProviderResult :=
  fun idx _ => .resp ("T" ++ toString idx)

/-- A stub client raising an authentication failure on paragraph index 2
and succeeding elsewhere. -/
def attAuthAt2 : Nat → Nat → ProviderResult :=
  fun idx _ => if idx = 2 then .raises "401 unauthorized" else .resp ("T" ++ toString idx)

/-- A stub client raising a network failure on every attempt for
paragraph index 2 and succeeding elsewhere. -/
def attNetAt2 : Nat → Nat → ProviderResult :=
  fun idx _ => if idx = 2 then .raises "network timeout" else .resp ("T" ++ toString idx)

/-- A loaded checkpoint holding a translation for index 1 only. -/
def progDoneAt1 : LoadedProgress :=
  ⟨fun i => if i = 1 then some "done" else none⟩

/-- A loaded checkpoint whose translated map is empty (job row exists,
no completed paragraphs). -/
def progEmpty : LoadedProgress :=
  ⟨fun _ => none⟩

theorem dropWhile_eq_self_of_all {p : Char → Bool} {l : List Char}
    (h : ∀ c ∈ l, p c = false) : l.dropWhile p = l := by
  cases l with
  | nil => rfl
  | cons c rest => simp [List.dropWhile_cons, h c (by simp)]

theorem pyStripChars_eq_self {l : List Char} (h : ∀ c ∈ l, isPySpace c = false) :
    pyStripChars l = l := by
  unfold pyStripChars
  rw [dropWhile_eq_self_of_all h, dropWhile_eq_self_of_all (fun c hc => h c (by simpa using hc)),
    List.reverse_reverse]

theorem pyStripChars_length_le (l : List Char) : (pyStripChars l).length ≤ l.length := by
  unfold pyStripChars
  have h1 := (List.dropWhile_sublist (l := l) isPySpace).length_le
  have h2 := (List.dropWhile_sublist (l := (l.dropWhile isPySpace).reverse) isPySpace).length_le
  simp only [List.length_reverse] at *
  omega

theorem length_mk (l : List Char) : (String.mk l).length = l.length := rfl

theorem mk_data (s : String) : String.mk s.data = s := rfl

theorem pyStrip_length_le (s : String) : (pyStrip s).length ≤ s.length :=
  pyStripChars_length_le s.data

theorem pyStrip_of_wordOk {w : String} (h : wordOkS w) : pyStrip w = w := by
  show String.mk (pyStripChars w.data) = w
  rw [pyStripChars_eq_self h.2, mk_data]

theorem joinSpace_nil : joinSpace [] = "" := rfl

theorem joinSpace_single (w : String) : joinSpace [w] = w := rfl

theorem joinSpace_cons_cons (w b : String) (ws : List String) :
    joinSpace (w :: b :: ws) = w ++ " " ++ joinSpace (b :: ws) := rfl

theorem joinSpace_append_single (l : List String) (w : String) :
    joinSpace (l ++ [w]) = if l = [] then w else joinSpace l ++ " " ++ w := by
  induction l with
  | nil => simp [joinSpace_single]
  | cons a as ih =>
    cases as with
    | nil => simp [joinSpace_cons_cons, joinSpace_single]
    | cons b bs =>
      have ih' : joinSpace ((b :: bs) ++ [w]) = joinSpace (b :: bs) ++ " " ++ w := by
        simpa using ih
      have step : (a :: b :: bs) ++ [w] = a :: b :: (bs ++ [w]) := rfl
      rw [step, joinSpace_cons_cons, if_neg (by simp)]
      have step2 : b :: (bs ++ [w]) = (b :: bs) ++ [w] := rfl
      rw [step2, ih', joinSpace_cons_cons]
      simp [String.append_assoc]

theorem splitWsAux_wordOk :
    ∀ (l cur : List Char), (∀ c ∈ cur, isPySpace c = false) →
      ∀ w ∈ splitWsAux cur l, w ≠ [] ∧ ∀ c ∈ w, isPySpace c = false := by
  intro l
  induction l with
  | nil =>
    intro cur hcur w hw
    unfold splitWsAux at hw
    by_cases hc : cur.isEmpty
    · simp [hc] at hw
    · simp only [hc, Bool.false_eq_true, if_false, List.mem_singleton] at hw
      subst hw
      refine ⟨by simpa using hc, fun c hc' => hcur c (by simpa using hc')⟩
  | cons c rest ih =>
    intro cur hcur w hw
    unfold splitWsAux at hw
    by_cases hsp : isPySpace c
    · rw [if_pos hsp] at hw
      by_cases hc : cur.isEmpty
      · rw [if_pos hc] at hw
        exact ih [] (by simp) w hw
      · rw [if_neg hc] at hw
        rcases List.mem_cons.mp hw with hw | hw
        · subst hw
          refine ⟨by simpa using hc, fun c' hc' => hcur c' (by simpa using hc')⟩
        · exact ih [] (by simp) w hw
    · rw [if_neg hsp] at hw
      refine ih (c :: cur) ?_ w hw
      intro c' hc'
      rcases List.mem_cons.mp hc' with h | h
      · subst h; simpa using hsp
      · exact hcur c' h

theorem splitWsStr_wordOk {s : String} : ∀ w ∈ splitWsStr s, wordOkS w := by
  intro w hw
  unfold splitWsStr at hw
  obtain ⟨w', hw', rfl⟩ := List.mem_map.mp hw
  exact splitWsAux_wordOk s.data [] (by simp) w' hw'

theorem space_isPySpace : isPySpace ' ' = true := by decide

theorem flush_paraOk {minL maxS size : Nat} {chunk : List String}
    (hne : chunk ≠ []) (hwords : ∀ w ∈ chunk, wordOkS w)
    (hinv : (joinSpace chunk).length ≤ size ∧ (2 ≤ chunk.length → 5 * size ≤ 4 * maxS))
    (hlen : minL ≤ (pyStrip (joinSpace chunk)).length) :
    paraOk minL maxS (pyStrip (joinSpace chunk)) := by
  refine ⟨hlen, ?_⟩
  match chunk, hne with
  | [w], _ =>
    rw [joinSpace_single, pyStrip_of_wordOk (hwords w (by simp))]
    right
    intro hsp
    have h := (hwords w (by simp)).2 ' ' hsp
    rw [space_isPySpace] at h
    simp at h
  | w :: b :: rest, _ =>
    left
    have h1 : (pyStrip (joinSpace (w :: b :: rest))).length ≤ (joinSpace (w :: b :: rest)).length :=
      pyStrip_length_le _
    have h2 := hinv.1
    have h3 := hinv.2 (by simp)
    omega

theorem joinSpace_append_length {chunk : List String} {w : String} (h : chunk ≠ []) :
    (joinSpace (chunk ++ [w])).length = (joinSpace chunk).length + 1 + w.length := by
  rw [joinSpace_append_single, if_neg h, String.length_append, String.length_append]
  rfl

theorem chunkWords_paraOk (minL maxS : Nat) :
    ∀ (ws acc chunk : List String) (size : Nat),
      (∀ q ∈ acc, paraOk minL maxS q) →
      (∀ w ∈ chunk, wordOkS w) →
      (∀ w ∈ ws, wordOkS w) →
      (chunk = [] ∨ ((joinSpace chunk).length ≤ size ∧ (2 ≤ chunk.length → 5 * size ≤ 4 * maxS))) →
      ∀ p ∈ chunkWords minL maxS acc chunk size ws, paraOk minL maxS p := by
  intro ws
  induction ws with
  | nil =>
    intro acc chunk size hacc hchunk _ hinv p hp
    unfold chunkWords at hp
    match chunk, hinv with
    | [], _ => exact hacc p hp
    | c :: cs, hinv =>
      rcases hinv with h | hinv
      · exact absurd h (by simp)
      · by_cases hlen : minL ≤ (pyStrip (joinSpace (c :: cs))).length
        · rw [if_pos hlen] at hp
          rcases List.mem_append.mp hp with hp | hp
          · exact hacc p hp
          · rw [List.mem_singleton] at hp
            subst hp
            exact flush_paraOk (by simp) hchunk hinv hlen
        · rw [if_neg hlen] at hp
          exact hacc p hp
  | cons w ws ih =>
    intro acc chunk size hacc hchunk hws hinv p hp
    unfold chunkWords at hp
    by_cases hcond : 5 * (size + (w.length + 1)) > 4 * maxS ∧ ¬chunk.isEmpty
    · rw [if_pos hcond] at hp
      have hne : chunk ≠ [] := by
        intro h; subst h; simp at hcond
      have hinv' : (joinSpace chunk).length ≤ size ∧ (2 ≤ chunk.length → 5 * size ≤ 4 * maxS) := by
        rcases hinv with h | h
        · exact absurd h hne
        · exact h
      have hacc' : ∀ q ∈ (if minL ≤ (pyStrip (joinSpace chunk)).length then
          acc ++ [pyStrip (joinSpace chunk)] else acc), paraOk minL maxS q := by
        by_cases hlen : minL ≤ (pyStrip (joinSpace chunk)).length
        · rw [if_pos hlen]
          intro q hq
          rcases List.mem_append.mp hq with hq | hq
          · exact hacc q hq
          · rw [List.mem_singleton] at hq
            subst hq
            exact flush_paraOk hne hchunk hinv' hlen
        · rw [if_neg hlen]
          exact hacc
      refine ih _ [w] w.length hacc' ?_ (fun x hx => hws x (by simp [hx])) ?_ p hp
      · intro x hx
        rw [List.mem_singleton] at hx
        subst hx
        exact hws x (by simp)
      · right
        refine ⟨by rw [joinSpace_single], ?_⟩
        intro h
        simp at h
    · rw [if_neg hcond] at hp
      refine ih _ (chunk ++ [w]) (size + (w.length + 1)) hacc ?_
        (fun x hx => hws x (by simp [hx])) ?_ p hp
      · intro x hx
        rcases List.mem_append.mp hx with hx | hx
        · exact hchunk x hx
        · rw [List.mem_singleton] at hx
          subst hx
          exact hws x (by simp)
      · right
        constructor
        · rcases List.eq_nil_or_concat' chunk with h | _
          · subst h
            rw [List.nil_append, joinSpace_single]
            omega
          · by_cases hne : chunk = []
            · subst hne
              rw [List.nil_append, joinSpace_single]
              omega
            · rw [joinSpace_append_length hne]
              rcases hinv with h | h
              · exact absurd h hne
              · omega
        · intro hlen2
          by_cases hne : chunk = []
          · subst hne
            simp at hlen2
          · have : ¬5 * (size + (w.length + 1)) > 4 * maxS := by
              intro h
              exact hcond ⟨h, by simpa using hne⟩
            omega

theorem finalCleanup_paraOk (minL maxS : Nat) :
    ∀ (l acc : List String), (∀ q ∈ acc, paraOk minL maxS q) →
      ∀ p ∈ finalCleanup minL maxS acc l, paraOk minL maxS p := by
  intro l
  induction l with
  | nil =>
    intro acc hacc p hp
    unfold finalCleanup at hp
    exact hacc p hp
  | cons q qs ih =>
    intro acc hacc p hp
    unfold finalCleanup at hp
    by_cases hbig : 3 * maxS < 2 * (pyStrip (normWsStr q)).length
    · rw [if_pos hbig] at hp
      refine ih _ ?_ p hp
      exact chunkWords_paraOk minL maxS _ acc [] 0 hacc (by simp) splitWsStr_wordOk (Or.inl rfl)
    · rw [if_neg hbig] at hp
      by_cases hmin : minL ≤ (pyStrip (normWsStr q)).length
      · rw [if_pos hmin] at hp
        have hdirect : paraOk minL maxS (pyStrip (normWsStr q)) := ⟨hmin, Or.inl (by omega)⟩
        match hlast : acc.getLast? with
        | some lastP =>
          rw [hlast] at hp
          dsimp only at hp
          have hlastMem : lastP ∈ acc := by
            obtain ⟨h', rfl⟩ := List.mem_getLast?_eq_getLast (Option.mem_def.mpr hlast)
            exact List.getLast_mem h'
          have hlastOk := hacc lastP hlastMem
          by_cases hmerge : 4 * lastP.length < 3 * maxS ∧
              (pyStrip (normWsStr q)).length < minL * 4
          · rw [if_pos hmerge] at hp
            by_cases hfit : (lastP ++ " " ++ pyStrip (normWsStr q)).length ≤ maxS
            · rw [if_pos hfit] at hp
              refine ih _ ?_ p hp
              intro x hx
              rcases List.mem_append.mp hx with hx | hx
              · exact hacc x (List.dropLast_subset acc hx)
              · rw [List.mem_singleton] at hx
                subst hx
                have hlen : (lastP ++ " " ++ pyStrip (normWsStr q)).length =
                    lastP.length + 1 + (pyStrip (normWsStr q)).length := by
                  rw [String.length_append, String.length_append]
                  rfl
                refine ⟨?_, Or.inl ?_⟩
                · have := hlastOk.1
                  omega
                · omega
            · rw [if_neg hfit] at hp
              refine ih _ ?_ p hp
              intro x hx
              rcases List.mem_append.mp hx with hx | hx
              · exact hacc x hx
              · rw [List.mem_singleton] at hx
                subst hx
                exact hdirect
          · rw [if_neg hmerge] at hp
            refine ih _ ?_ p hp
            intro x hx
            rcases List.mem_append.mp hx with hx | hx
            · exact hacc x hx
            · rw [List.mem_singleton] at hx
              subst hx
              exact hdirect
        | none =>
          rw [hlast] at hp
          dsimp only at hp
          refine ih _ ?_ p hp
          intro x hx
          rcases List.mem_append.mp hx with hx | hx
          · exact hacc x hx
          · rw [List.mem_singleton] at hx
            subst hx
            exact hdirect
      · rw [if_neg hmin] at hp
        exact ih _ hacc p hp

theorem split_into_paragraphs_paraOk (text : String) (minL maxS : Nat) :
    ∀ p ∈ split_into_paragraphs text minL maxS, paraOk minL maxS p := by
  intro p hp
  unfold split_into_paragraphs at hp
  by_cases h : pyStrip text = ""
  · rw [if_pos h] at hp
    exact absurd hp (List.not_mem_nil p)
  · rw [if_neg h] at hp
    exact finalCleanup_paraOk minL maxS _ [] (by simp) p hp

/-- C3, counterexample: the claimed upper bound `1.5 * max_size` fails.
For the input consisting of a single 20-character word with
`min_length = 5` and `max_size = 10`, `split_into_paragraphs` returns a
paragraph of length 20 > 15 = 1.5 * 10: the word-chunker cannot split
inside a word, so the whole word survives every fallback stage. -/
theorem c3_counterexample :
    ∃ p ∈ split_into_paragraphs (String.mk (List.replicate 20 'a')) 5 10,
      ¬2 * p.length ≤ 3 * 10 := by
  decide

/-- C3, amended: for every input text and parameters, every paragraph
returned by `split_into_paragraphs` has length at least `min_length`
(unconditionally — a document below `min_length` yields the empty list,
so the claimed single-short-paragraph exception never occurs), and has
length at most `1.5 * max_size` unless it contains no space — i.e. unless
it is a single word that the word-chunker cannot split. -/
theorem c3_segmentation_bounds_amended (text : String) (minLength maxSize : Nat) :
    ∀ p ∈ split_into_paragraphs text minLength maxSize,
      minLength ≤ p.length ∧ (2 * p.length ≤ 3 * maxSize ∨ ' ' ∉ p.data) :=
  split_into_paragraphs_paraOk text minLength maxSize

/-- Witness for C3 amended at a concrete input. -/
theorem c3_segmentation_bounds_witness :
    ("1. Alpha 2. Beta 3. Gamma" ∈ split_into_paragraphs "1. Alpha\n\n2. Beta\n\n3. Gamma" 5 2000) ∧
      (5 ≤ ("1. Alpha 2. Beta 3. Gamma" : String).length ∧
        (2 * ("1. Alpha 2. Beta 3. Gamma" : String).length ≤ 3 * 2000 ∨
          ' ' ∉ ("1. Alpha 2. Beta 3. Gamma" : String).data)) :=
  ⟨by decide,
    c3_segmentation_bounds_amended "1. Alpha\n\n2. Beta\n\n3. Gamma" 5 2000
      "1. Alpha 2. Beta 3. Gamma" (by decide)⟩

/-- C4, counterexample: the non-blank input `"ab\n\ncd"` with
`min_length = 3` has length 6 > 3, yet `split_into_paragraphs` returns
the empty list, because each blank-line fragment is shorter than
`min_length` and is dropped. -/
theorem c4_counterexample :
    split_into_paragraphs "ab\n\ncd" 3 2000 = [] ∧
      pyStrip "ab\n\ncd" ≠ "" ∧ 3 < ("ab\n\ncd" : String).length := by
  decide

/-- C4, amended: for every input and any `min_length ≥ 1`, no element of
the returned list is the empty string (each element has length at least
`min_length`); however a non-blank input longer than `min_length` can
still produce the empty list when every blank-line fragment normalizes to
below `min_length`, so the non-empty-list half of the claim does not
hold. -/
theorem c4_no_empty_amended (text : String) (minLength maxSize : Nat)
    (hmin : 1 ≤ minLength) :
    ∀ p ∈ split_into_paragraphs text minLength maxSize, p ≠ "" := by
  intro p hp heq
  have h := (split_into_paragraphs_paraOk text minLength maxSize p hp).1
  rw [heq] at h
  have : ("" : String).length = 0 := rfl
  omega

/-- Witness for C4 amended at a concrete input. -/
theorem c4_no_empty_witness :
    1 ≤ 5 ∧ ("1. Alpha 2. Beta 3. Gamma" ∈ split_into_paragraphs "1. Alpha\n\n2. Beta\n\n3. Gamma" 5 2000) ∧
      ("1. Alpha 2. Beta 3. Gamma" : String) ≠ "" :=
  ⟨by decide, by decide,
    c4_no_empty_amended "1. Alpha\n\n2. Beta\n\n3. Gamma" 5 2000 (by decide)
      "1. Alpha 2. Beta 3. Gamma" (by decide)⟩

/-- C7, confirmed: the verse-grouping test vector.  The input
`"1. Alpha\n\n2. Beta\n\n3. Gamma"` with `min_length = 5` (and the default
`max_paragraph_size = 2000`) yields exactly one paragraph holding all
three verse fragments joined with single spaces. -/
theorem c7_verse_grouping :
    split_into_paragraphs "1. Alpha\n\n2. Beta\n\n3. Gamma" 5 2000 =
      ["1. Alpha 2. Beta 3. Gamma"] := by
  decide

section SchedulerLemmas

variable (pp : List String) (apiKey targetLang : String) (maxRetries total : Nat)
variable (att : Nat → Nat → ProviderResult) (store store' : Nat → String → StoreOutcome)
variable (pfid : Option String)

theorem schedStep_invoked (s : RunState) (i : Nat) :
    (schedStep pp apiKey targetLang maxRetries att store pfid total false s i).invoked =
      s.invoked ++ [i] := by
  unfold schedStep process_paragraph
  simp only [Bool.false_eq_true, if_false]
  cases translate_paragraph_gemini (pp.getD i "") apiKey maxRetries targetLang (att i) with
  | ok tr => rfl
  | error e => cases e <;> rfl

theorem schedStep_tasks (s : RunState) (i : Nat) :
    (schedStep pp apiKey targetLang maxRetries att store pfid total false s i).tasks =
      s.tasks := by
  unfold schedStep process_paragraph
  simp only [Bool.false_eq_true, if_false]
  cases translate_paragraph_gemini (pp.getD i "") apiKey maxRetries targetLang (att i) with
  | ok tr => rfl
  | error e => cases e <;> rfl

theorem schedStep_slots_length (s : RunState) (i : Nat) :
    (schedStep pp apiKey targetLang maxRetries att store pfid total false s i).slots.length =
      s.slots.length := by
  unfold schedStep process_paragraph
  simp only [Bool.false_eq_true, if_false]
  cases translate_paragraph_gemini (pp.getD i "") apiKey maxRetries targetLang (att i) with
  | ok tr => simp [List.length_set]
  | error e => cases e <;> simp [List.length_set]

theorem schedStep_slots_ne (s : RunState) (i j : Nat) (hij : i ≠ j) :
    (schedStep pp apiKey targetLang maxRetries att store pfid total false s i).slots[j]? =
      s.slots[j]? := by
  unfold schedStep process_paragraph
  simp only [Bool.false_eq_true, if_false]
  cases translate_paragraph_gemini (pp.getD i "") apiKey maxRetries targetLang (att i) with
  | ok tr => simp [List.getElem?_set_ne hij]
  | error e => cases e <;> simp [List.getElem?_set_ne hij]

theorem schedStep_slot_set (s : RunState) (i : Nat) (v : Option String)
    (hv : taskSlot pp apiKey targetLang maxRetries att i = some v)
    (hlen : i < s.slots.length) :
    (schedStep pp apiKey targetLang maxRetries att store pfid total false s i).slots[i]? =
      some v := by
  unfold taskSlot at hv
  unfold schedStep process_paragraph
  simp only [Bool.false_eq_true, if_false]
  cases h : translate_paragraph_gemini (pp.getD i "") apiKey maxRetries targetLang (att i) with
  | ok tr =>
    rw [h] at hv
    simp only at hv
    injection hv with hv
    subst hv
    simp [List.getElem?_set_eq_of_lt, hlen]
  | error e =>
    rw [h] at hv
    cases e with
    | valueError m => exact absurd hv (by simp)
    | stopped => exact absurd hv (by simp)
    | otherError m =>
      simp only at hv
      injection hv with hv
      subst hv
      simp [List.getElem?_set_eq_of_lt, hlen]

theorem foldl_sched_invoked :
    ∀ (ts : List Nat) (s : RunState),
      ((ts.foldl (schedStep pp apiKey targetLang maxRetries att store pfid total false) s)).invoked =
        s.invoked ++ ts := by
  intro ts
  induction ts with
  | nil => intro s; simp
  | cons a rest ih =>
    intro s
    rw [List.foldl_cons, ih, schedStep_invoked]
    simp

theorem foldl_sched_tasks :
    ∀ (ts : List Nat) (s : RunState),
      ((ts.foldl (schedStep pp apiKey targetLang maxRetries att store pfid total false) s)).tasks =
        s.tasks := by
  intro ts
  induction ts with
  | nil => intro s; simp
  | cons a rest ih =>
    intro s
    rw [List.foldl_cons, ih, schedStep_tasks]

theorem foldl_sched_slots_length :
    ∀ (ts : List Nat) (s : RunState),
      ((ts.foldl (schedStep pp apiKey targetLang maxRetries att store pfid total false) s)).slots.length =
        s.slots.length := by
  intro ts
  induction ts with
  | nil => intro s; simp
  | cons a rest ih =>
    intro s
    rw [List.foldl_cons, ih, schedStep_slots_length]

theorem foldl_sched_slots_notmem :
    ∀ (ts : List Nat) (s : RunState) (i : Nat), i ∉ ts →
      ((ts.foldl (schedStep pp apiKey targetLang maxRetries att store pfid total false) s)).slots[i]? =
        s.slots[i]? := by
  intro ts
  induction ts with
  | nil => intro s i _; simp
  | cons a rest ih =>
    intro s i hi
    rw [List.foldl_cons, ih _ _ (fun h => hi (List.mem_cons_of_mem a h)),
      schedStep_slots_ne]
    intro h
    exact hi (h ▸ List.mem_cons_self a rest)

theorem foldl_sched_slot_set :
    ∀ (ts : List Nat) (s : RunState) (i : Nat) (v : Option String),
      ts.Nodup → i ∈ ts → i < s.slots.length →
      taskSlot pp apiKey targetLang maxRetries att i = some v →
      ((ts.foldl (schedStep pp apiKey targetLang maxRetries att store pfid total false) s)).slots[i]? =
        some v := by
  intro ts
  induction ts with
  | nil => intro s i v _ hi; exact absurd hi (List.not_mem_nil i)
  | cons a rest ih =>
    intro s i v hnd hi hlen hv
    rw [List.foldl_cons]
    rcases List.mem_cons.mp hi with hi | hi
    · subst hi
      rw [foldl_sched_slots_notmem]
      · exact schedStep_slot_set _ _ _ _ _ _ _ _ _ _ _ hv hlen
      · exact (List.nodup_cons.mp hnd).1
    · have hne : a ≠ i := by
        intro h
        subst h
        exact (List.nodup_cons.mp hnd).1 hi
      refine ih _ _ _ (List.nodup_cons.mp hnd).2 hi ?_ hv
      rw [schedStep_slots_length]
      exact hlen

theorem schedStep_visible (stop : Bool) (s s' : RunState) (i : Nat)
    (h : visible s = visible s') :
    visible (schedStep pp apiKey targetLang maxRetries att store pfid total stop s i) =
      visible (schedStep pp apiKey targetLang maxRetries att store' pfid total stop s' i) := by
  have h1 : s.slots = s'.slots := congrArg (fun x => x.1) h
  have h2 : s.failed = s'.failed := congrArg (fun x => x.2.1) h
  have h3 : s.invoked = s'.invoked := congrArg (fun x => x.2.2.1) h
  have h4 : s.progressEvents = s'.progressEvents := congrArg (fun x => x.2.2.2.1) h
  have h5 : s.tasks = s'.tasks := congrArg (fun x => x.2.2.2.2) h
  unfold schedStep process_paragraph
  cases stop with
  | true =>
    rw [if_pos rfl, if_pos rfl]
    exact h
  | false =>
    simp only [Bool.false_eq_true, if_false]
    cases translate_paragraph_gemini (pp.getD i "") apiKey maxRetries targetLang (att i) with
    | ok tr => simp [visible, h1, h2, h3, h4, h5]
    | error e => cases e <;> simp [visible, h1, h2, h3, h4, h5]

theorem foldl_sched_visible (stop : Bool) :
    ∀ (ts : List Nat) (s s' : RunState), visible s = visible s' →
      visible (ts.foldl (schedStep pp apiKey targetLang maxRetries att store pfid total stop) s) =
        visible (ts.foldl (schedStep pp apiKey targetLang maxRetries att store' pfid total stop) s') := by
  intro ts
  induction ts with
  | nil => intro s s' h; simpa using h
  | cons a rest ih =>
    intro s s' h
    rw [List.foldl_cons, List.foldl_cons]
    exact ih _ _ (schedStep_visible _ _ _ _ _ _ _ _ _ stop _ _ a h)

end SchedulerLemmas

theorem translate_text_gemini_run (text apiKey targetLang : String) (maxRetries : Nat)
    (att : Nat → Nat → ProviderResult) (store : Nat → String → StoreOutcome)
    (pfid : Option String) (loadResult : Option LoadedProgress) (resumeFromIndex : Nat)
    (htext : pyStrip text ≠ "") (hkey : pyStrip apiKey ≠ "")
    (hpp : split_into_paragraphs text 50 2000 ≠ []) :
    translate_text_gemini text apiKey targetLang maxRetries att store pfid loadResult
        resumeFromIndex false =
      ⟨.ok (joinBlank (((runFinal text apiKey targetLang maxRetries att store pfid loadResult
          resumeFromIndex)).slots.filterMap id)),
        runFinal text apiKey targetLang maxRetries att store pfid loadResult resumeFromIndex⟩ := by
  unfold translate_text_gemini runFinal
  rw [if_neg htext, if_neg hkey, if_neg hpp, if_neg (by simp)]

theorem attempt_loop_all_raise (targetLang : String) (maxRetries : Nat)
    (att : Nat → ProviderResult) (hatt : ∀ j, retryableRaise (att j)) :
    ∀ (remaining k : Nat) (lastMsg : String),
      ∃ m, gemini_attempt_loop targetLang maxRetries att k remaining lastMsg =
        .error (.otherError m) := by
  intro remaining
  induction remaining with
  | zero =>
    intro k lastMsg
    exact ⟨"Translation failed: " ++ lastMsg, rfl⟩
  | succ r ih =>
    intro k lastMsg
    obtain ⟨msg, hmsg, hna⟩ := hatt k
    unfold gemini_attempt_loop
    rw [hmsg]
    simp only
    by_cases hrate : hasAny (toLowerStr msg) ["429", "rate limit", "quota"] = true
    · rw [if_pos hrate]
      by_cases hr : 1 ≤ r
      · rw [if_pos hr]
        exact ih (k + 1) msg
      · rw [if_neg hr]
        exact ⟨_, rfl⟩
    · rw [if_neg hrate, if_neg (by rw [hna]; exact Bool.false_ne_true)]
      by_cases hnet : hasAny (toLowerStr msg) ["network", "connection", "timeout"] = true
      · rw [if_pos hnet]
        by_cases hr : 1 ≤ r
        · rw [if_pos hr]
          exact ih (k + 1) msg
        · rw [if_neg hr]
          exact ⟨_, rfl⟩
      · rw [if_neg hnet]
        by_cases hr : 1 ≤ r
        · rw [if_pos hr]
          exact ih (k + 1) msg
        · rw [if_neg hr]
          exact ⟨_, rfl⟩

theorem translate_paragraph_exhaust (paragraph apiKey targetLang : String) (maxRetries : Nat)
    (att : Nat → ProviderResult) (hkey : pyStrip apiKey ≠ "")
    (hatt : ∀ j, retryableRaise (att j)) :
    ∃ m, translate_paragraph_gemini paragraph apiKey maxRetries targetLang att =
      .error (.otherError m) := by
  unfold translate_paragraph_gemini
  rw [if_neg hkey]
  obtain ⟨m, hm⟩ := attempt_loop_all_raise targetLang maxRetries att hatt maxRetries 0 "None"
  rw [hm]
  exact ⟨_, rfl⟩

theorem initialSlots_length (total : Nat) (rs : Nat × List (Option String)) :
    total ≤ (initialSlots total rs).length := by
  unfold initialSlots
  by_cases h : rs.1 = 0
  · rw [if_pos h]
    simp
  · rw [if_neg h]
    simp
    omega

theorem runTasks_nodup (text : String) (pfid : Option String)
    (loadResult : Option LoadedProgress) (r : Nat) :
    (runTasks text pfid loadResult r).Nodup := by
  unfold runTasks
  exact List.nodup_range' ..

theorem runTasks_mem_lt (text : String) (pfid : Option String)
    (loadResult : Option LoadedProgress) (r idx : Nat)
    (h : idx ∈ runTasks text pfid loadResult r) :
    idx < (split_into_paragraphs text 50 2000).length := by
  unfold runTasks at h
  rw [List.mem_range'_1] at h
  omega

/-- C1, theorem for the code_bug: evaluating the scheduler at the failing
input.  A five-paragraph document whose client raises a `401`
authentication failure (a `ValueError`) on paragraph index 2: contrary to
the claim, the run does not abort — the `as_completed` harvest loop's
`except Exception` swallows the re-raised `ValueError` (translator.py
lines 921-924), every one of the five paragraphs is attempted, and the
function returns normally with paragraph 2 silently missing from the
joined output. -/
theorem c1_auth_error_swallowed :
    (translate_text_gemini scenarioText5 "key" "Russian" 3 attAuthAt2 storeAllOk none none
          0 false).result = .ok "T0\n\nT1\n\nT3\n\nT4" ∧
      (translate_text_gemini scenarioText5 "key" "Russian" 3 attAuthAt2 storeAllOk none none
          0 false).state.invoked = [0, 1, 2, 3, 4] ∧
      (translate_text_gemini scenarioText5 "key" "Russian" 3 attAuthAt2 storeAllOk none none
          0 false).state.slots = [some "T0", some "T1", none, some "T3", some "T4"] := by
  decide

/-- C2, counterexample: the translation client is re-invoked for an index
whose translation is already present in the loaded checkpoint.  Two
paragraphs, checkpoint holding a translation for index 1, resume from
index 1: the task list is all of `range(1, 2)`, so the client is invoked
for index 1 even though `progDoneAt1.translated 1` is populated. -/
theorem c2_counterexample :
    progDoneAt1.translated 1 = some "done" ∧
      (translate_text_gemini scenarioText2 "key" "Russian" 3 attAllOk storeAllOk (some "fid")
          (some progDoneAt1) 1 false).state.invoked = [1] := by
  decide

/-- C2, amended: in a resume run the dispatched set is exactly all of
`[resume_from_index, total)` regardless of the checkpoint contents
(equivalently, all indices of that interval whose slot is unpopulated,
since loading seeds only slots below `resume_from_index` — every slot at
an index `≥ resume_from_index` starts out `None`); indices below
`resume_from_index` are never dispatched, but the client is re-invoked
for indices `≥ resume_from_index` even when the checkpoint already holds
their translation. -/
theorem c2_resume_dispatch_amended (text apiKey targetLang : String) (maxRetries : Nat)
    (att : Nat → Nat → ProviderResult) (store : Nat → String → StoreOutcome)
    (f : String) (prog : LoadedProgress) (r : Nat)
    (htext : pyStrip text ≠ "") (hkey : pyStrip apiKey ≠ "")
    (hpp : split_into_paragraphs text 50 2000 ≠ []) (hf : f ≠ "") (hr : 0 < r) :
    (translate_text_gemini text apiKey targetLang maxRetries att store (some f) (some prog)
          r false).state.invoked =
        List.range' r ((split_into_paragraphs text 50 2000).length - r) ∧
      (∀ i, i < r →
        i ∉ (translate_text_gemini text apiKey targetLang maxRetries att store (some f)
            (some prog) r false).state.invoked) ∧
      (∀ i, r ≤ i → i < (split_into_paragraphs text 50 2000).length →
        (runInit text (some f) (some prog) r).slots[i]? = some none) := by
  have hseed : resumeSeed (some f) (some prog) r =
      (r, (List.range r).map fun i => prog.translated i) := by
    unfold resumeSeed
    rw [if_pos ⟨by simp [pfidTruthy, hf], hr⟩]
  have htasks : runTasks text (some f) (some prog) r =
      List.range' r ((split_into_paragraphs text 50 2000).length - r) := by
    unfold runTasks
    rw [hseed]
  have hinv : (translate_text_gemini text apiKey targetLang maxRetries att store (some f)
      (some prog) r false).state.invoked =
      List.range' r ((split_into_paragraphs text 50 2000).length - r) := by
    rw [translate_text_gemini_run text apiKey targetLang maxRetries att store (some f)
      (some prog) r htext hkey hpp]
    show (runFinal text apiKey targetLang maxRetries att store (some f) (some prog) r).invoked = _
    unfold runFinal
    rw [foldl_sched_invoked]
    show (runInit text (some f) (some prog) r).invoked ++ _ = _
    rw [htasks]
    rfl
  refine ⟨hinv, ?_, ?_⟩
  · intro i hi hmem
    rw [hinv, List.mem_range'_1] at hmem
    omega
  · intro i hri hitot
    unfold runInit initialSlots
    rw [hseed]
    rw [if_neg (by omega)]
    have hlen : ((List.range r).map fun i => prog.translated i).length = r := by simp
    rw [List.getElem?_append_right (by rw [hlen]; omega)]
    rw [hlen, List.getElem?_replicate]
    rw [if_pos (by omega)]

/-- Witness for C2 amended at a concrete resume run. -/
theorem c2_resume_dispatch_witness :
    (pyStrip scenarioText2 ≠ "" ∧ pyStrip "key" ≠ "" ∧
        split_into_paragraphs scenarioText2 50 2000 ≠ [] ∧ ("fid" : String) ≠ "" ∧ 0 < 1) ∧
      ((translate_text_gemini scenarioText2 "key" "Russian" 3 attAllOk storeAllOk (some "fid")
            (some progDoneAt1) 1 false).state.invoked =
          List.range' 1 ((split_into_paragraphs scenarioText2 50 2000).length - 1) ∧
        (∀ i, i < 1 →
          i ∉ (translate_text_gemini scenarioText2 "key" "Russian" 3 attAllOk storeAllOk
              (some "fid") (some progDoneAt1) 1 false).state.invoked) ∧
        (∀ i, 1 ≤ i → i < (split_into_paragraphs scenarioText2 50 2000).length →
          (runInit scenarioText2 (some "fid") (some progDoneAt1) 1).slots[i]? = some none)) :=
  ⟨⟨by decide, by decide, by decide, by decide, by decide⟩,
    c2_resume_dispatch_amended scenarioText2 "key" "Russian" 3 attAllOk storeAllOk "fid"
      progDoneAt1 1 (by decide) (by decide) (by decide) (by decide) (by decide)⟩

/-- C5, confirmed: when the client raises a retryable (non-auth) failure
on every attempt for some dispatched paragraph, the retry loop exhausts
`max_retries` and raises a generic `Exception`; `process_paragraph` then
fills that paragraph's slot with the original text followed by the inline
`" [Translation error: ...]"` marker, and the run still dispatches every
task and returns the joined document normally. -/
theorem c5_soft_failure_continues (text apiKey targetLang : String) (maxRetries : Nat)
    (att : Nat → Nat → ProviderResult) (store : Nat → String → StoreOutcome)
    (pfid : Option String) (loadResult : Option LoadedProgress) (r idx : Nat)
    (htext : pyStrip text ≠ "") (hkey : pyStrip apiKey ≠ "")
    (hpp : split_into_paragraphs text 50 2000 ≠ [])
    (hidx : idx ∈ runTasks text pfid loadResult r)
    (hatt : ∀ j, retryableRaise (att idx j)) :
    ∃ m,
      (translate_text_gemini text apiKey targetLang maxRetries att store pfid loadResult r
            false).state.slots[idx]? =
          some (some ((split_into_paragraphs text 50 2000).getD idx "" ++
            " [Translation error: " ++ m ++ "]")) ∧
        (translate_text_gemini text apiKey targetLang maxRetries att store pfid loadResult r
            false).result =
          .ok (joinBlank ((translate_text_gemini text apiKey targetLang maxRetries att store
              pfid loadResult r false).state.slots.filterMap id)) ∧
        (translate_text_gemini text apiKey targetLang maxRetries att store pfid loadResult r
            false).state.invoked = runTasks text pfid loadResult r := by
  obtain ⟨m, hm⟩ := translate_paragraph_exhaust ((split_into_paragraphs text 50 2000).getD idx "")
    apiKey targetLang maxRetries (att idx) hkey hatt
  refine ⟨m, ?_, ?_, ?_⟩
  · rw [translate_text_gemini_run text apiKey targetLang maxRetries att store pfid loadResult r
      htext hkey hpp]
    show (runFinal text apiKey targetLang maxRetries att store pfid loadResult r).slots[idx]? = _
    unfold runFinal
    apply foldl_sched_slot_set
    · exact runTasks_nodup text pfid loadResult r
    · exact hidx
    · have h1 := initialSlots_length (split_into_paragraphs text 50 2000).length
        (resumeSeed pfid loadResult r)
      have h2 := runTasks_mem_lt text pfid loadResult r idx hidx
      show idx < (runInit text pfid loadResult r).slots.length
      have h3 : (runInit text pfid loadResult r).slots =
          initialSlots (split_into_paragraphs text 50 2000).length (resumeSeed pfid loadResult r) :=
        rfl
      rw [h3]
      omega
    · unfold taskSlot
      rw [hm]
  · rw [translate_text_gemini_run text apiKey targetLang maxRetries att store pfid loadResult r
      htext hkey hpp]
  · rw [translate_text_gemini_run text apiKey targetLang maxRetries att store pfid loadResult r
      htext hkey hpp]
    show (runFinal text apiKey targetLang maxRetries att store pfid loadResult r).invoked = _
    unfold runFinal
    rw [foldl_sched_invoked]
    rfl

/-- Witness for C5 at a concrete run: a client raising
`"network timeout"` on every attempt for paragraph index 2 of five. -/
theorem c5_soft_failure_witness :
    (pyStrip scenarioText5 ≠ "" ∧ pyStrip "key" ≠ "" ∧
        split_into_paragraphs scenarioText5 50 2000 ≠ [] ∧
        2 ∈ runTasks scenarioText5 none none 0) ∧
      ∃ m,
        (translate_text_gemini scenarioText5 "key" "Russian" 3 attNetAt2 storeAllOk none none 0
              false).state.slots[2]? =
            some (some ((split_into_paragraphs scenarioText5 50 2000).getD 2 "" ++
              " [Translation error: " ++ m ++ "]")) ∧
          (translate_text_gemini scenarioText5 "key" "Russian" 3 attNetAt2 storeAllOk none none 0
              false).result =
            .ok (joinBlank ((translate_text_gemini scenarioText5 "key" "Russian" 3 attNetAt2
                storeAllOk none none 0 false).state.slots.filterMap id)) ∧
          (translate_text_gemini scenarioText5 "key" "Russian" 3 attNetAt2 storeAllOk none none 0
              false).state.invoked = runTasks scenarioText5 none none 0 :=
  ⟨⟨by decide, by decide, by decide, by decide⟩,
    c5_soft_failure_continues scenarioText5 "key" "Russian" 3 attNetAt2 storeAllOk none none 0 2
      (by decide) (by decide) (by decide) (by decide)
      (fun j => ⟨"network timeout", rfl, by decide⟩)⟩

/-- C6, confirmed: the outcome of every checkpoint write is irrelevant to
the run — `update_progress_paragraph` raising or returning `False` changes
nothing the program reads or returns (first conjunct: the run's result and
every visible state component coincide with those of a run whose store
always succeeds); and a successfully translated paragraph keeps its slot
and is counted in the `completed_count` reported to the progress callback
(second conjunct). -/
theorem c6_checkpoint_failure_nonfatal :
    (∀ (text apiKey targetLang : String) (maxRetries : Nat) (att : Nat → Nat → ProviderResult)
        (store store' : Nat → String → StoreOutcome) (pfid : Option String)
        (loadResult : Option LoadedProgress) (r : Nat) (stop : Bool),
      (translate_text_gemini text apiKey targetLang maxRetries att store pfid loadResult r
            stop).result =
          (translate_text_gemini text apiKey targetLang maxRetries att store' pfid loadResult r
            stop).result ∧
        visible (translate_text_gemini text apiKey targetLang maxRetries att store pfid
            loadResult r stop).state =
          visible (translate_text_gemini text apiKey targetLang maxRetries att store' pfid
            loadResult r stop).state) ∧
    (∀ (pp : List String) (apiKey targetLang : String) (maxRetries : Nat)
        (att : Nat → Nat → ProviderResult) (store : Nat → String → StoreOutcome)
        (pfid : Option String) (total : Nat) (s : RunState) (i : Nat) (tr : String),
      i < s.slots.length →
      translate_paragraph_gemini (pp.getD i "") apiKey maxRetries targetLang (att i) = .ok tr →
      (process_paragraph pp apiKey targetLang maxRetries att store pfid total false s i).1.slots[i]? =
          some (some tr) ∧
        (process_paragraph pp apiKey targetLang maxRetries att store pfid total false s
            i).1.progressEvents =
          s.progressEvents ++
            [(countSome ((process_paragraph pp apiKey targetLang maxRetries att store pfid total
                false s i).1.slots), total)]) := by
  constructor
  · intro text apiKey targetLang maxRetries att store store' pfid loadResult r stop
    unfold translate_text_gemini
    by_cases h1 : pyStrip text = ""
    · rw [if_pos h1, if_pos h1]
      exact ⟨rfl, rfl⟩
    · rw [if_neg h1, if_neg h1]
      by_cases h2 : pyStrip apiKey = ""
      · rw [if_pos h2, if_pos h2]
        exact ⟨rfl, rfl⟩
      · rw [if_neg h2, if_neg h2]
        by_cases h3 : split_into_paragraphs text 50 2000 = []
        · rw [if_pos h3, if_pos h3]
          exact ⟨rfl, rfl⟩
        · rw [if_neg h3, if_neg h3]
          by_cases h4 : (stop = true) ∧ runTasks text pfid loadResult r ≠ []
          · rw [if_pos h4, if_pos h4]
            exact ⟨rfl, rfl⟩
          · rw [if_neg h4, if_neg h4]
            have hv := foldl_sched_visible (split_into_paragraphs text 50 2000) apiKey targetLang
              maxRetries (split_into_paragraphs text 50 2000).length att store store' pfid stop
              (runTasks text pfid loadResult r) (runInit text pfid loadResult r)
              (runInit text pfid loadResult r) rfl
            have hslots : (List.foldl (schedStep (split_into_paragraphs text 50 2000) apiKey
                targetLang maxRetries att store pfid (split_into_paragraphs text 50 2000).length
                stop) (runInit text pfid loadResult r) (runTasks text pfid loadResult r)).slots =
                (List.foldl (schedStep (split_into_paragraphs text 50 2000) apiKey targetLang
                maxRetries att store' pfid (split_into_paragraphs text 50 2000).length stop)
                (runInit text pfid loadResult r) (runTasks text pfid loadResult r)).slots :=
              congrArg (fun x => x.1) hv
            exact ⟨by dsimp only; rw [hslots], by dsimp only; exact hv⟩
  · intro pp apiKey targetLang maxRetries att store pfid total s i tr hlen htr
    unfold process_paragraph
    simp only [Bool.false_eq_true, if_false]
    rw [htr]
    constructor
    · simp [List.getElem?_set_eq_of_lt, hlen]
    · rfl

/-- Witness for C6 (second conjunct) at a concrete paragraph. -/
theorem c6_checkpoint_failure_witness :
    (0 < ([none] : List (Option String)).length ∧
        translate_paragraph_gemini (["hello world"].getD 0 "") "key" 3 "Russian" (attAllOk 0) =
          .ok "T0") ∧
      (process_paragraph ["hello world"] "key" "Russian" 3 attAllOk storeAllRaise (some "fid") 1
            false ⟨[none], [], [], [], [], []⟩ 0).1.slots[0]? = some (some "T0") ∧
        (process_paragraph ["hello world"] "key" "Russian" 3 attAllOk storeAllRaise (some "fid") 1
            false ⟨[none], [], [], [], [], []⟩ 0).1.progressEvents =
          ([] : List (Nat × Nat)) ++
            [(countSome ((process_paragraph ["hello world"] "key" "Russian" 3 attAllOk
                storeAllRaise (some "fid") 1 false ⟨[none], [], [], [], [], []⟩ 0).1.slots), 1)] :=
  ⟨⟨by decide, by decide⟩,
    c6_checkpoint_failure_nonfatal.2 ["hello world"] "key" "Russian" 3 attAllOk storeAllRaise
      (some "fid") 1 ⟨[none], [], [], [], [], []⟩ 0 "T0" (by decide) (by decide)⟩

/-- C8, confirmed: the returned text is the blank-line join of exactly the
non-None slots in index order (first conjunct, for every unstopped run
that reaches the worker phase); in the concrete resume scenario where the
loaded checkpoint has no entry for index 0 and resume starts at 1, index
0 is never scheduled, its slot stays `None`, and the output joins only
paragraphs 1-4 with no placeholder for the missing paragraph (second
conjunct). -/
theorem c8_output_omits_unresolved :
    (∀ (text apiKey targetLang : String) (maxRetries : Nat) (att : Nat → Nat → ProviderResult)
        (store : Nat → String → StoreOutcome) (pfid : Option String)
        (loadResult : Option LoadedProgress) (r : Nat),
      pyStrip text ≠ "" → pyStrip apiKey ≠ "" → split_into_paragraphs text 50 2000 ≠ [] →
      (translate_text_gemini text apiKey targetLang maxRetries att store pfid loadResult r
            false).result =
        .ok (joinBlank ((translate_text_gemini text apiKey targetLang maxRetries att store pfid
            loadResult r false).state.slots.filterMap id))) ∧
    ((translate_text_gemini scenarioText5 "key" "Russian" 3 attAllOk storeAllOk (some "fid")
          (some progEmpty) 1 false).state.slots[0]? = some none ∧
      (translate_text_gemini scenarioText5 "key" "Russian" 3 attAllOk storeAllOk (some "fid")
          (some progEmpty) 1 false).result = .ok "T1\n\nT2\n\nT3\n\nT4") := by
  constructor
  · intro text apiKey targetLang maxRetries att store pfid loadResult r htext hkey hpp
    rw [translate_text_gemini_run text apiKey targetLang maxRetries att store pfid loadResult r
      htext hkey hpp]
  · exact ⟨by decide, by decide⟩

/-- Witness for C8 (first conjunct) at a concrete run. -/
theorem c8_output_omits_unresolved_witness :
    (pyStrip scenarioText2 ≠ "" ∧ pyStrip "key" ≠ "" ∧
        split_into_paragraphs scenarioText2 50 2000 ≠ []) ∧
      (translate_text_gemini scenarioText2 "key" "Russian" 3 attAllOk storeAllOk none none 0
            false).result =
        .ok (joinBlank ((translate_text_gemini scenarioText2 "key" "Russian" 3 attAllOk
            storeAllOk none none 0 false).state.slots.filterMap id)) :=
  ⟨⟨by decide, by decide, by decide⟩,
    c8_output_omits_unresolved.1 scenarioText2 "key" "Russian" 3 attAllOk storeAllOk none none 0
      (by decide) (by decide) (by decide)⟩

/-- C10, confirmed: `translate_text_gemini` raises `ValueError` for empty
or whitespace-only input text, and for a blank API key; but a non-empty
text whose segmentation yields zero paragraphs returns the empty string
with no error and with the translation client never invoked. -/
theorem c10_empty_input_handling :
    (∀ (text apiKey targetLang : String) (maxRetries : Nat) (att : Nat → Nat → ProviderResult)
        (store : Nat → String → StoreOutcome) (pfid : Option String)
        (loadResult : Option LoadedProgress) (r : Nat) (stop : Bool),
      pyStrip text = "" →
      (translate_text_gemini text apiKey targetLang maxRetries att store pfid loadResult r
          stop).result = .error (.valueError "Input text is empty")) ∧
    (∀ (text apiKey targetLang : String) (maxRetries : Nat) (att : Nat → Nat → ProviderResult)
        (store : Nat → String → StoreOutcome) (pfid : Option String)
        (loadResult : Option LoadedProgress) (r : Nat) (stop : Bool),
      pyStrip text ≠ "" → pyStrip apiKey = "" →
      (translate_text_gemini text apiKey targetLang maxRetries att store pfid loadResult r
          stop).result =
        .error (.valueError "Google API key is required but not provided")) ∧
    (∀ (text apiKey targetLang : String) (maxRetries : Nat) (att : Nat → Nat → ProviderResult)
        (store : Nat → String → StoreOutcome) (pfid : Option String)
        (loadResult : Option LoadedProgress) (r : Nat) (stop : Bool),
      pyStrip text ≠ "" → pyStrip apiKey ≠ "" → split_into_paragraphs text 50 2000 = [] →
      (translate_text_gemini text apiKey targetLang maxRetries att store pfid loadResult r
            stop).result = .ok "" ∧
        (translate_text_gemini text apiKey targetLang maxRetries att store pfid loadResult r
            stop).state.invoked = []) := by
  refine ⟨?_, ?_, ?_⟩
  · intro text apiKey targetLang maxRetries att store pfid loadResult r stop h
    unfold translate_text_gemini
    rw [if_pos h]
  · intro text apiKey targetLang maxRetries att store pfid loadResult r stop htext hkey
    unfold translate_text_gemini
    rw [if_neg htext, if_pos hkey]
  · intro text apiKey targetLang maxRetries att store pfid loadResult r stop htext hkey hsplit
    unfold translate_text_gemini
    rw [if_neg htext, if_neg hkey, if_pos hsplit]
    exact ⟨rfl, rfl⟩

/-- Witness for C10 at concrete inputs: whitespace-only text, blank key,
and the short text `"hello"` (below the default `min_length = 50`, so it
segments to zero paragraphs). -/
theorem c10_empty_input_witness :
    (pyStrip " \n " = "" ∧
        (translate_text_gemini " \n " "key" "Russian" 3 attAllOk storeAllOk none none 0
            false).result = .error (.valueError "Input text is empty")) ∧
      (pyStrip "x" ≠ "" ∧ pyStrip " " = "" ∧
        (translate_text_gemini "x" " " "Russian" 3 attAllOk storeAllOk none none 0
            false).result =
          .error (.valueError "Google API key is required but not provided")) ∧
      (pyStrip "hello" ≠ "" ∧ pyStrip "key" ≠ "" ∧
        split_into_paragraphs "hello" 50 2000 = [] ∧
        (translate_text_gemini "hello" "key" "Russian" 3 attAllOk storeAllOk none none 0
              false).result = .ok "" ∧
          (translate_text_gemini "hello" "key" "Russian" 3 attAllOk storeAllOk none none 0
              false).state.invoked = []) :=
  ⟨⟨by decide,
      c10_empty_input_handling.1 " \n " "key" "Russian" 3 attAllOk storeAllOk none none 0 false
        (by decide)⟩,
    ⟨by decide, by decide,
      c10_empty_input_handling.2.1 "x" " " "Russian" 3 attAllOk storeAllOk none none 0 false
        (by decide) (by decide)⟩,
    ⟨by decide, by decide, by decide,
      c10_empty_input_handling.2.2 "hello" "key" "Russian" 3 attAllOk storeAllOk none none 0
        false (by decide) (by decide) (by decide)⟩⟩

theorem dictInsert_fresh (d : List (Nat × String)) (k : Nat) (v : String)
    (h : ∀ kv ∈ d, kv.1 ≠ k) : dictInsert d k v = d ++ [(k, v)] := by
  unfold dictInsert
  have hany : d.any (fun kv => kv.1 = k) = false := by
    rw [List.any_eq_false]
    intro kv hkv
    simp [h kv hkv]
  rw [if_neg (by rw [hany]; exact Bool.false_ne_true)]

theorem load_progress_fold :
    ∀ (rows : List PRow) (d1 d2 : List (Nat × String)),
      (∀ r ∈ rows, ∀ kv ∈ d1, kv.1 ≠ r.idx) →
      (∀ r ∈ rows, ∀ kv ∈ d2, kv.1 ≠ r.idx) →
      (rows.map PRow.idx).Nodup →
      rows.foldl loadStep (d1, d2) =
        (d1 ++ rows.map fun r => (r.idx, r.original),
          d2 ++ (rows.filter fun r => truthyText r.translated).map
            fun r => (r.idx, r.translated.getD "")) := by
  intro rows
  induction rows with
  | nil => intro d1 d2 _ _ _; simp
  | cons row rest ih =>
    intro d1 d2 h1 h2 hnd
    have hfresh1 : ∀ kv ∈ d1, kv.1 ≠ row.idx :=
      h1 row (List.mem_cons_self row rest)
    have hnd2 : (row.idx :: rest.map PRow.idx).Nodup := by simpa using hnd
    have hhead : row.idx ∉ rest.map PRow.idx := (List.nodup_cons.mp hnd2).1
    have hrestnd : (rest.map PRow.idx).Nodup := (List.nodup_cons.mp hnd2).2
    have hne : ∀ r ∈ rest, row.idx ≠ r.idx := by
      intro r hr heq
      exact hhead (heq ▸ List.mem_map_of_mem PRow.idx hr)
    rw [List.foldl_cons]
    have hstep : loadStep (d1, d2) row =
        (d1 ++ [(row.idx, row.original)],
          if truthyText row.translated = true then d2 ++ [(row.idx, row.translated.getD "")]
          else d2) := by
      unfold loadStep
      rw [dictInsert_fresh d1 row.idx row.original hfresh1]
      cases htr : row.translated with
      | none => simp [truthyText]
      | some s =>
        by_cases hs : s = ""
        · subst hs
          simp [truthyText]
        · simp only [truthyText, hs]
          rw [dictInsert_fresh d2 row.idx s (h2 row (List.mem_cons_self row rest))]
          simp [hs]
    rw [hstep]
    by_cases htr : truthyText row.translated = true
    · rw [if_pos htr]
      rw [ih (d1 ++ [(row.idx, row.original)]) (d2 ++ [(row.idx, row.translated.getD "")])
        ?_ ?_ hrestnd]
      · rw [List.filter_cons_of_pos (by simpa using htr)]
        simp
      · intro r hr kv hkv
        rcases List.mem_append.mp hkv with hkv | hkv
        · exact h1 r (List.mem_cons_of_mem row hr) kv hkv
        · rw [List.mem_singleton] at hkv
          subst hkv
          exact hne r hr
      · intro r hr kv hkv
        rcases List.mem_append.mp hkv with hkv | hkv
        · exact h2 r (List.mem_cons_of_mem row hr) kv hkv
        · rw [List.mem_singleton] at hkv
          subst hkv
          exact hne r hr
    · rw [if_neg htr]
      rw [ih (d1 ++ [(row.idx, row.original)]) d2 ?_
        (fun r hr => h2 r (List.mem_cons_of_mem row hr)) hrestnd]
      · rw [List.filter_cons_of_neg (by simpa using htr)]
        simp
      · intro r hr kv hkv
        rcases List.mem_append.mp hkv with hkv | hkv
        · exact h1 r (List.mem_cons_of_mem row hr) kv hkv
        · rw [List.mem_singleton] at hkv
          subst hkv
          exact hne r hr

theorem dictLookup_of_not_mem (d : List (Nat × String)) (k : Nat)
    (h : ∀ kv ∈ d, kv.1 ≠ k) : dictLookup d k = none := by
  unfold dictLookup
  rw [List.find?_eq_none.mpr]
  · rfl
  · intro kv hkv
    simp [h kv hkv]

theorem dictLookup_rows_self :
    ∀ (rows : List PRow), (rows.map PRow.idx).Nodup → ∀ r ∈ rows,
      dictLookup (rows.map fun r => (r.idx, r.original)) r.idx = some r.original := by
  intro rows
  induction rows with
  | nil => intro _ r hr; exact absurd hr (List.not_mem_nil r)
  | cons a rest ih =>
    intro hnd r hr
    have hnd2 : (a.idx :: rest.map PRow.idx).Nodup := by simpa using hnd
    have hhead : a.idx ∉ rest.map PRow.idx := (List.nodup_cons.mp hnd2).1
    have hrestnd : (rest.map PRow.idx).Nodup := (List.nodup_cons.mp hnd2).2
    rcases List.mem_cons.mp hr with hr | hr
    · subst hr
      unfold dictLookup
      rw [List.map_cons, List.find?_cons_of_pos _ (by simp)]
      rfl
    · have hne : a.idx ≠ r.idx := by
        intro heq
        exact hhead (heq ▸ List.mem_map_of_mem PRow.idx hr)
      unfold dictLookup
      rw [List.map_cons, List.find?_cons_of_neg _ (by simp [hne])]
      exact ih hrestnd r hr

/-- C9, confirmed: `load_progress` counts a paragraph as completed only
when its stored `translated_text` is truthy.  With distinct row indices:
`completed_paragraphs` equals the number of rows with non-empty, non-NULL
translations; a row whose translation is NULL or the empty string is
absent from the `translated_paragraphs` map; and the reconstructed
`original_paragraphs` list has length `total_paragraphs`, carrying each
stored row's original text at its index and the empty string at every
index with no row. -/
theorem c9_load_progress_truthy (total : Nat) (rows : List PRow)
    (hnd : (rows.map PRow.idx).Nodup) :
    (load_progress total rows).completedParagraphs =
        (rows.filter fun r => truthyText r.translated).length ∧
      (∀ r ∈ rows, truthyText r.translated = false →
        dictLookup (load_progress total rows).translatedParagraphs r.idx = none) ∧
      (load_progress total rows).originalParagraphs.length = total ∧
      (∀ r ∈ rows, r.idx < total →
        (load_progress total rows).originalParagraphs[r.idx]? = some r.original) ∧
      (∀ i, i < total → (∀ r ∈ rows, r.idx ≠ i) →
        (load_progress total rows).originalParagraphs[i]? = some "") := by
  have hfold := load_progress_fold rows [] [] (by simp) (by simp) hnd
  have hlp : load_progress total rows =
      ⟨total,
        (if 0 < total then
          (List.range total).map fun i =>
            (dictLookup (rows.map fun r => (r.idx, r.original)) i).getD ""
        else []),
        (rows.filter fun r => truthyText r.translated).map
          fun r => (r.idx, r.translated.getD ""),
        ((rows.filter fun r => truthyText r.translated).map
          fun r => (r.idx, r.translated.getD "")).length⟩ := by
    unfold load_progress
    rw [hfold]
    simp
  rw [hlp]
  refine ⟨by simp, ?_, ?_, ?_, ?_⟩
  · intro r hr htr
    apply dictLookup_of_not_mem
    intro kv hkv
    obtain ⟨r', hr', rfl⟩ := List.mem_map.mp hkv
    have hr'rows := List.mem_of_mem_filter hr'
    intro heq
    have : r' = r := List.inj_on_of_nodup_map hnd hr'rows hr heq
    subst this
    rw [(List.mem_filter.mp hr').2] at htr
    simp at htr
  · by_cases h : 0 < total
    · rw [if_pos h]
      simp
    · rw [if_neg h]
      simp
      omega
  · intro r hr hlt
    rw [if_pos (by omega)]
    have hmap : ((List.range total).map fun i =>
        (dictLookup (rows.map fun r => (r.idx, r.original)) i).getD "")[r.idx]? =
        some ((dictLookup (rows.map fun r => (r.idx, r.original)) r.idx).getD "") := by
      simp [List.getElem?_map, List.getElem?_range hlt]
    rw [hmap, dictLookup_rows_self rows hnd r hr]
    rfl
  · intro i hi hno
    rw [if_pos (by omega)]
    have hmap : ((List.range total).map fun j =>
        (dictLookup (rows.map fun r => (r.idx, r.original)) j).getD "")[i]? =
        some ((dictLookup (rows.map fun r => (r.idx, r.original)) i).getD "") := by
      simp [List.getElem?_map, List.getElem?_range hi]
    rw [hmap, dictLookup_of_not_mem]
    · rfl
    · intro kv hkv
      obtain ⟨r, hr, rfl⟩ := List.mem_map.mp hkv
      exact hno r hr

/-- Witness for C9 at a concrete row set: index 0 translated, index 1
stored as the empty string, index 2 stored as NULL, total 4. -/
theorem c9_load_progress_witness :
    (([⟨0, "o0", some "t0"⟩, ⟨1, "o1", some ""⟩, ⟨2, "o2", none⟩] : List PRow).map
        PRow.idx).Nodup ∧
      ((load_progress 4 [⟨0, "o0", some "t0"⟩, ⟨1, "o1", some ""⟩, ⟨2, "o2", none⟩]).completedParagraphs =
          (([⟨0, "o0", some "t0"⟩, ⟨1, "o1", some ""⟩, ⟨2, "o2", none⟩] : List PRow).filter
            fun r => truthyText r.translated).length ∧
        (∀ r ∈ ([⟨0, "o0", some "t0"⟩, ⟨1, "o1", some ""⟩, ⟨2, "o2", none⟩] : List PRow),
          truthyText r.translated = false →
          dictLookup (load_progress 4 [⟨0, "o0", some "t0"⟩, ⟨1, "o1", some ""⟩,
            ⟨2, "o2", none⟩]).translatedParagraphs r.idx = none) ∧
        (load_progress 4 [⟨0, "o0", some "t0"⟩, ⟨1, "o1", some ""⟩,
          ⟨2, "o2", none⟩]).originalParagraphs.length = 4 ∧
        (∀ r ∈ ([⟨0, "o0", some "t0"⟩, ⟨1, "o1", some ""⟩, ⟨2, "o2", none⟩] : List PRow),
          r.idx < 4 →
          (load_progress 4 [⟨0, "o0", some "t0"⟩, ⟨1, "o1", some ""⟩,
            ⟨2, "o2", none⟩]).originalParagraphs[r.idx]? = some r.original) ∧
        (∀ i, i < 4 →
          (∀ r ∈ ([⟨0, "o0", some "t0"⟩, ⟨1, "o1", some ""⟩, ⟨2, "o2", none⟩] : List PRow),
            r.idx ≠ i) →
          (load_progress 4 [⟨0, "o0", some "t0"⟩, ⟨1, "o1", some ""⟩,
            ⟨2, "o2", none⟩]).originalParagraphs[i]? = some "")) :=
  ⟨by decide,
    c9_load_progress_truthy 4 [⟨0, "o0", some "t0"⟩, ⟨1, "o1", some ""⟩, ⟨2, "o2", none⟩]
      (by decide)⟩

end TranslatePdf
